import Mathlib

/-!
Verification of the resource-reconciliation client
(`lookup_plugins/k8s.py`, `module_utils/k8s/raw.py`, `module_utils/k8s/common.py`).

The embedding models Python values flowing through the reconciliation engine as
`JVal`: JSON-like data plus typed "model objects" (instances of the generated
swagger model classes, which carry a class name and attribute map).  Python
dicts are association lists in insertion order (Python 3.7 dict semantics).
Stateful in-place mutation in the source is embedded as explicit state passing:
every function that mutates an argument returns the new value instead.
Fallible code returns `Except`.  General recursion through values uses an
explicit fuel parameter so that all definitions are executable and reduce in
the kernel.
-/

inductive JVal where
  | null : JVal
  | bool (b : Bool) : JVal
  | int (n : Int) : JVal
  | str (s : String) : JVal
  | list (xs : List JVal) : JVal
  | dict (kvs : List (String × JVal)) : JVal
  | obj (cls : String) (fields : List (String × JVal)) : JVal

mutual

/-- Python `==` on embedded values (structural equality; the `int`/`bool`
cross-type equalities of Python, e.g. `1 == True`, are not exercised by any
modelled code path and are omitted). -/
def jeq : JVal → JVal → Bool
  | .null, .null => true
  | .bool a, .bool b => a == b
  | .int a, .int b => a == b
  | .str a, .str b => a == b
  | .list a, .list b => jeqL a b
  | .dict a, .dict b => jeqK a b
  | .obj c a, .obj d b => c == d && jeqK a b
  | _, _ => false

/-- Pointwise Python `==` on lists. -/
def jeqL : List JVal → List JVal → Bool
  | [], [] => true
  | a :: as_, b :: bs => jeq a b && jeqL as_ bs
  | _, _ => false

/-- Pointwise Python `==` on dict entry lists. -/
def jeqK : List (String × JVal) → List (String × JVal) → Bool
  | [], [] => true
  | (k, v) :: as_, (k2, v2) :: bs => k == k2 && jeq v v2 && jeqK as_ bs
  | _, _ => false

end

/-- Python truthiness of an embedded value: `None`, `False`, `0`, `""`, `[]`
and `{}` are falsy; model-class instances are always truthy (no `__bool__`). -/
def truthy : JVal → Bool
  | .null => false
  | .bool b => b
  | .int n => n != 0
  | .str s => s != ""
  | .list xs => !xs.isEmpty
  | .dict kvs => !kvs.isEmpty
  | .obj _ _ => true

/-- `type(value).__name__` for an embedded value. -/
def typeName : JVal → String
  | .null => "NoneType"
  | .bool _ => "bool"
  | .int _ => "int"
  | .str _ => "str"
  | .list _ => "list"
  | .dict _ => "dict"
  | .obj cls _ => cls

/-- Dict read access, `d.get(k)`: `none` when the key is absent. -/
def jlookup (kvs : List (String × JVal)) (k : String) : Option JVal :=
  match kvs with
  | [] => none
  | (k2, v) :: rest => if k2 == k then some v else jlookup rest k

/-- Dict write access, `d[k] = v`: updates the first binding in place, or
appends a new binding at the end (Python dict insertion order). -/
def jset (kvs : List (String × JVal)) (k : String) (v : JVal) : List (String × JVal) :=
  match kvs with
  | [] => [(k, v)]
  | (k2, v2) :: rest => if k2 == k then (k2, v) :: rest else (k2, v2) :: jset rest k v

/-- Dict deletion, `d.pop(k)` (keys of a Python dict are unique, so removing
every binding of `k` coincides with removing the one binding). -/
def jremove (kvs : List (String × JVal)) (k : String) : List (String × JVal) :=
  kvs.filter (fun p => !(p.1 == k))

/-- Whether a dict contains a key, `k in d`. -/
def hasKey (kvs : List (String × JVal)) (k : String) : Bool :=
  (jlookup kvs k).isSome

/-- `d.get(k)` with Python's `None` default, as a value. -/
def jgetD (v : JVal) (k : String) : JVal :=
  match v with
  | .dict kvs => (jlookup kvs k).getD .null
  | _ => .null

/-- Resolve a path of nested dict keys inside a value; `none` as soon as a key
is missing or the value at hand is not a dict.  (Used only to state theorems
about which nested fields survive a merge.) -/
def getPath : JVal → List String → Option JVal
  | v, [] => some v
  | .dict kvs, k :: rest =>
    match jlookup kvs k with
    | some v => getPath v rest
    | none => none
  | _, _ :: _ => none

/-- Python 3.6 `keyword.kwlist` (the repository targets Python 2.7/3.x; no
entry starts with an underscore, which is what the bijection below rests on). -/
def kwlist : List String :=
  ["False", "None", "True", "and", "as", "assert", "break", "class",
   "continue", "def", "del", "elif", "else", "except", "finally", "for",
   "from", "global", "if", "import", "in", "is", "lambda", "nonlocal",
   "not", "or", "pass", "raise", "return", "try", "while", "with", "yield"]

/-- The forward pairs `('_' + kw, kw)` of
`dict(zip(['_{0}'.format(item) for item in kwlist], kwlist))`
(lookup_plugins/k8s.py line 235). -/
def kwPairs : List (String × String) :=
  kwlist.map (fun k => ("_" ++ k, k))

/-- `PYTHON_KEYWORD_MAPPING` after the `update` with the reversed pairs
(lookup_plugins/k8s.py lines 235-236).  The two key sets are disjoint (no
keyword starts with `_`), so representing the dict as the concatenation of the
two runs of insertions is exact. -/
def PYTHON_KEYWORD_MAPPING : List (String × String) :=
  kwPairs ++ kwPairs.map (fun p => (p.2, p.1))

/-- `PYTHON_KEYWORD_MAPPING.get(s)`. -/
def kwGet (s : String) : Option String :=
  match PYTHON_KEYWORD_MAPPING.find? (fun p => p.1 == s) with
  | some p => some p.2
  | none => none

/-- `PYTHON_KEYWORD_MAPPING.get(raw, raw)` (lookup_plugins/k8s.py line 464). -/
def kwGetD (s : String) : String :=
  (kwGet s).getD s

/-- One left-to-right pass of `re.sub(r'[a-z][A-Z]|[A-Z]{2}[a-z]', m -> m[0] + '_' + m[1:], name)`
(lookup_plugins/k8s.py lines 843-854).  The first argument is the character at
the current scan position; a match consumes its two or three characters and
scanning resumes after it. -/
def toSnakeAux : Char → List Char → List Char
  | a, [] => [a]
  | a, b :: rest =>
    if a.isLower && b.isUpper then
      match rest with
      | [] => [a, '_', b]
      | c :: rest2 => a :: '_' :: b :: toSnakeAux c rest2
    else if a.isUpper && b.isUpper then
      match rest with
      | [] => [a, b]
      | c :: rest2 =>
        if c.isLower then
          match rest2 with
          | [] => [a, '_', b, c]
          | d :: rest3 => a :: '_' :: b :: c :: toSnakeAux d rest3
        else a :: toSnakeAux b (c :: rest2)
    else a :: toSnakeAux b rest

/-- `to_snake` (lookup_plugins/k8s.py lines 843-854): camel to snake case. -/
def to_snake (name : String) : String :=
  if name == "" then name
  else
    match name.toList with
    | [] => name
    | a :: rest => String.mk ((toSnakeAux a rest).map Char.toLower)

/-- `s.startswith(pre)` (via character lists, so that it reduces in the
kernel). -/
def strStartsWith (s pre : String) : Bool :=
  pre.toList.isPrefixOf s.toList

/-- `s.lower()` (via character lists). -/
def strToLower (s : String) : String :=
  String.mk (s.toList.map Char.toLower)

/-- Python's `needle in hay` on strings: substring containment. -/
def strContains (hay needle : String) : Bool :=
  hay.toList.tails.any (fun t => needle.toList.isPrefixOf t)

/-- The base64 alphabet, indexed 0-63. -/
def b64alphabet : List Char :=
  "ABCDEFGHIJKLMNOPQRSTUVWXYZabcdefghijklmnopqrstuvwxyz0123456789+/".toList

/-- Encode a run of bytes, three at a time, into base64 characters. -/
def b64chunks : List Nat → List Char
  | [] => []
  | [x] =>
    [b64alphabet.getD (x / 4) ' ', b64alphabet.getD (x % 4 * 16) ' ', '=', '=']
  | [x, y] =>
    [b64alphabet.getD (x / 4) ' ', b64alphabet.getD (x % 4 * 16 + y / 16) ' ',
     b64alphabet.getD (y % 16 * 4) ' ', '=']
  | x :: y :: z :: rest =>
    b64alphabet.getD (x / 4) ' ' :: b64alphabet.getD (x % 4 * 16 + y / 16) ' ' ::
    b64alphabet.getD (y % 16 * 4 + z / 64) ' ' :: b64alphabet.getD (z % 64) ' ' ::
    b64chunks rest

/-- The UTF-8 encoding of one character, as byte values. -/
def utf8Bytes (c : Char) : List Nat :=
  let n := c.toNat
  if n < 128 then [n]
  else if n < 2048 then [192 + n / 64, 128 + n % 64]
  else if n < 65536 then [224 + n / 4096, 128 + n / 64 % 64, 128 + n % 64]
  else [240 + n / 262144, 128 + n / 4096 % 64, 128 + n / 64 % 64, 128 + n % 64]

/-- `base64.b64encode` on a string's UTF-8 bytes (Python 2 semantics, where
`b64encode` accepts `str`; under Python 3 the call site in
`object_from_params` would raise a `TypeError` instead — no claim exercises
it). -/
def b64encode (s : String) : String :=
  String.mk (b64chunks (s.toList.flatMap utf8Bytes))

/-- Errors raised by the modelled lookup-plugin code.  `keyError`,
`attrError` and `typeError` stand for the corresponding Python runtime
errors; `methodNotFound` and `helperError` for the `Exception`s raised in
`KubernetesLookup` (the spec's `SchemaResolutionError` / fatal lookup
failures). -/
inductive LookErr where
  | keyError : LookErr
  | attrError : LookErr
  | typeError : LookErr
  | methodNotFound : LookErr
  | helperError : LookErr
deriving DecidableEq

/-- `remove_secret_data` (lookup_plugins/k8s.py lines 829-840).  Mutates the
dict in place in the source; modelled as returning the new dict.  Notes on
fidelity: `obj_dict.get('data')` is a truthiness test, so falsy values (empty
dict, `None`) are NOT popped; `obj_dict['metadata']` raises `KeyError` when
absent and `.get` raises `AttributeError` on a non-dict; iterating a truthy
non-dict `annotations` value either no-ops (a string: no single character
contains `'secret'`) or raises — the raising shapes are folded into
`typeError`. -/
def popIfTruthy (kvs : List (String × JVal)) (k : String) : List (String × JVal) :=
  if truthy ((jlookup kvs k).getD .null) then jremove kvs k else kvs

/-- See `popIfTruthy` (the `if obj_dict.get(k): obj_dict.pop(k)` pattern). -/
def remove_secret_data (objDict : JVal) : Except LookErr JVal :=
  match objDict with
  | .dict kvs0 =>
    let kvs := popIfTruthy (popIfTruthy kvs0 "data") "string_data"
    match jlookup kvs "metadata" with
    | none => .error .keyError
    | some md =>
      match md with
      | .dict mdkvs =>
        match (jlookup mdkvs "annotations").getD .null with
        | .dict anns =>
          if truthy (.dict anns) then
            let anns := anns.filter (fun p => !strContains p.1 "secret")
            .ok (.dict (jset kvs "metadata" (.dict (jset mdkvs "annotations" (.dict anns)))))
          else .ok (.dict kvs)
        | .str _ => .ok (.dict kvs)
        | v => if truthy v then .error .typeError else .ok (.dict kvs)
      | _ => .error .attrError
  | _ => .error .attrError

/-- `KubernetesLookup.get_object` (lookup_plugins/k8s.py lines 1105-1120).
`kind` is the already-snake-cased kind; `apiResult` is what the external
helper's `get_object` returned (`none`: not found).  Serialization
(`json.loads(json.dumps(result.to_dict(), ...))`) is the identity on the
embedded dict. -/
def get_object (kind : String) (apiResult : Option JVal) : Except LookErr (List JVal) :=
  match apiResult with
  | none => .ok []
  | some resultJson =>
    if kind == "secret" then
      match remove_secret_data resultJson with
      | .error e => .error e
      | .ok cleaned => .ok [cleaned]
    else .ok [resultJson]

/-- `KubernetesLookup.list_objects` (lookup_plugins/k8s.py lines 1122-1171).
`methods` models `self.helper.lookup_method`: `none` when the named method
does not exist (the `KubernetesException` branch), otherwise the API result
the method returns when invoked (`none` inside: the method returned `None`).
When a namespace is given, only `list_namespaced_<kind>` is tried and failure
is fatal; only without a namespace does the code fall back from
`list_<kind>_for_all_namespaces` to `list_<kind>`. -/
def lookup_list_method (kind : String) (ns : Option String)
    (methods : String → Option (Option JVal)) : Option (Option JVal) :=
  match ns with
  | some _ =>
    match methods ("list_namespaced_" ++ kind) with
    | none => none
    | some r => some r
  | none =>
    match methods ("list_" ++ kind ++ "_for_all_namespaces") with
    | some r => some r
    | none =>
      match methods ("list_" ++ kind) with
      | some r => some r
      | none => none

/-- `remove_secret_data` over each element of a response list
(the `for item in response` loop). -/
def removeAllSecrets : List JVal → Except LookErr (List JVal)
  | [] => .ok []
  | x :: rest =>
    match remove_secret_data x with
    | .error e => .error e
    | .ok y =>
      match removeAllSecrets rest with
      | .error e => .error e
      | .ok ys => .ok (y :: ys)

/-- See `lookup_list_method` for the resolution step. -/
def list_objects (kind : String) (ns : Option String)
    (methods : String → Option (Option JVal)) : Except LookErr JVal :=
  match lookup_list_method kind ns methods with
  | none => .error .methodNotFound
  | some apiResult =>
    match apiResult with
    | none => .ok (.list [])
    | some resultJson =>
      match resultJson with
      | .dict kvs =>
        let response := (jlookup kvs "items").getD (.list [])
        if kind == "secret" then
          match response with
          | .list items =>
            match removeAllSecrets items with
            | .error e => .error e
            | .ok cleaned => .ok (.list cleaned)
          | v => if truthy v then .error .attrError else .ok v
        else .ok response
      | _ => .error .attrError

/-- The fallback order the spec claims for resolving a list operation:
namespace-scoped, then all-namespaces, then un-scoped, first success wins.
This definition follows the SPEC'S words (spec.md §4.2 and the list-fallback
scenario), to be compared against `list_objects` above. -/
def claimedListResolve (kind : String) (methods : String → Option (Option JVal)) :
    Option String :=
  ["list_namespaced_" ++ kind, "list_" ++ kind ++ "_for_all_namespaces",
   "list_" ++ kind].find? (fun m => (methods m).isSome)

/-- Errors raised out of the `AnsibleMixin` merge/materialize engine and the
module driver.  `keyError`, `attrError`, `typeError` stand for the Python
runtime errors; `unimplemented`, `ambiguous` and `unknownProp` for the three
distinct `KubernetesException` raises of the mixin (unimplemented type,
ambiguous merge target, unknown property); `noClass` for a failed
`model_class_from_name`; `noneType` for `AttributeError: 'NoneType' object
has no attribute 'to_dict'`; `fuel` marks recursion-budget exhaustion of the
embedding (never reached at the depths any theorem evaluates).  Where the
source would raise some other Python runtime error on shape-confused input
(e.g. iterating a non-iterable, or set-operations over unhashable elements),
the model folds it into `typeError` rather than reproducing character-level
string semantics; no claim exercises those inputs. -/
inductive MErr where
  | keyError : MErr
  | attrError : MErr
  | typeError : MErr
  | unimplemented : MErr
  | ambiguous : MErr
  | unknownProp : MErr
  | noClass : MErr
  | noneType : MErr
  | fuel : MErr
deriving DecidableEq

/-- `PRIMITIVES` of `openshift.helper` (an external collaborator constant;
the exact tail beyond `str`/`int`/`bool` is immaterial to every claim since
embedded values only ever carry those three primitive type names). -/
def PRIMITIVES : List String :=
  ["str", "int", "bool", "float", "datetime", "date", "object"]

/-- Whether a value may be a member of a Python `set` in the modelled code
(lists and dicts are unhashable; model objects hash by identity, which the
embedding cannot express — folded into the unhashable case, unexercised). -/
def isHashable : JVal → Bool
  | .list _ => false
  | .dict _ => false
  | .obj _ _ => false
  | _ => true

/-- First-occurrence deduplication by Python `==`, the order the model fixes
for `list(set(request_values) - set(src_values))` (Python set iteration order
is unspecified; every claim about this code is order-independent). -/
def dedupAux (seen : List JVal) : List JVal → List JVal
  | [] => []
  | x :: rest =>
    if seen.any (jeq x) then dedupAux seen rest
    else x :: dedupAux (x :: seen) rest

/-- The `'__cmp__' in dir(src_dict)` / `iteritems(src_dict) == iteritems(request_dict)`
match test of `__compare_list`'s dict branch (lookup_plugins/k8s.py lines
520-528) under Python 3: dicts have no `__cmp__`, and `six.iteritems` returns
a fresh iterator object on each call, so the `==` compares two distinct
iterators and is always `False`. -/
def pyDictMatch (_srcDict _requestDict : JVal) : Bool :=
  false

/-- `AnsibleMixin.__compare_list` (lookup_plugins/k8s.py lines 498-547).
Mutates `src_values` in place in the source; modelled as returning the new
list. -/
def compare_list (srcValues requestValues : List JVal) : Except MErr (List JVal) :=
  if requestValues.isEmpty then .ok srcValues
  else
    let srcValues := if srcValues.isEmpty then srcValues ++ requestValues else srcValues
    match srcValues with
    | [] => .ok []
    | s0 :: _ =>
      if PRIMITIVES.contains (typeName s0) then
        if !(srcValues ++ requestValues).all isHashable then .error .typeError
        else if requestValues.all (fun r => srcValues.any (jeq r)) then .ok srcValues
        else .ok (srcValues ++ dedupAux [] (requestValues.filter (fun r => !srcValues.any (jeq r))))
      else if typeName s0 == "dict" then
        if !(srcValues ++ requestValues).all (fun v => typeName v == "dict") then .error .typeError
        else .ok (srcValues ++ requestValues.filter (fun r => !srcValues.any (fun s => pyDictMatch s r)))
      else if typeName s0 == "list" then
        if !(srcValues ++ requestValues).all (fun v => typeName v == "list") then .error .typeError
        else
          .ok (srcValues ++ requestValues.filter (fun r =>
            !srcValues.any (fun s =>
              match s, r with
              | .list sl, .list rl => sl.all (fun e => rl.any (jeq e))
              | _, _ => false)))
      else .error .unimplemented

/-- `AnsibleMixin.__compare_dict` (lookup_plugins/k8s.py lines 549-567).
Walks the request dict in insertion order; primitive values are assigned,
list/dict values recurse into the entry already present in `src_value`
(`src_value[item]` raises `KeyError` when absent).  Nothing is ever removed
from `src_value`. -/
def compare_dict : Nat → List (String × JVal) → List (String × JVal) →
    Except MErr (List (String × JVal))
  | 0, _, _ => .error .fuel
  | _ + 1, srcValue, [] => .ok srcValue
  | fuel + 1, srcValue, (item, value) :: rest =>
    let step : Except MErr (List (String × JVal)) :=
      match value with
      | .str _ => .ok (jset srcValue item value)
      | .int _ => .ok (jset srcValue item value)
      | .bool _ => .ok (jset srcValue item value)
      | .list vs =>
        match jlookup srcValue item with
        | none => .error .keyError
        | some cur =>
          match cur with
          | .list cs =>
            match compare_list cs vs with
            | .error e => .error e
            | .ok merged => .ok (jset srcValue item (.list merged))
          | _ => .error .typeError
      | .dict vkvs =>
        match jlookup srcValue item with
        | none => .error .keyError
        | some cur =>
          match cur with
          | .dict ckvs =>
            match compare_dict fuel ckvs vkvs with
            | .error e => .error e
            | .ok merged => .ok (jset srcValue item (.dict merged))
          | _ => .error .typeError
      | _ => .error .unimplemented
    match step with
    | .error e => .error e
    | .ok src2 => compare_dict fuel src2 rest

/-- The schema environment: for each generated model class name, its
`swagger_types` map (attribute name to swagger type string such as `"str"`,
`"list[V1Container]"`, `"dict(str, str)"` or a nested class name).  Stands for
the external generated-model registry the mixin reflects over. -/
structure SchemaEnv where
  classes : List (String × List (String × String))

/-- The `swagger_types` of a class, when the class exists. -/
def classFields (env : SchemaEnv) (cls : String) : Option (List (String × String)) :=
  match env.classes.find? (fun p => p.1 == cls) with
  | some p => some p.2
  | none => none

/-- `hasattr(sample_obj, key)` for a freshly constructed model instance:
model instances carry exactly their swagger attributes. -/
def hasattrF (env : SchemaEnv) (cls k : String) : Bool :=
  match classFields env cls with
  | some fs => fs.any (fun p => p.1 == k)
  | none => false

/-- `self.model_class_from_name(name)()`: a fresh instance with every
attribute `None` (absent bindings read as `null`); fails when the class does
not exist. -/
def model_class_from_name (env : SchemaEnv) (cls : String) : Except MErr JVal :=
  if (classFields env cls).isSome then .ok (.obj cls []) else .error .noClass

/-- `getattr(o, k)`: only model instances have attributes; `None` (and any
non-object) raises `AttributeError`. -/
def getattrO (o : JVal) (k : String) : Except MErr JVal :=
  match o with
  | .obj _ flds => .ok ((jlookup flds k).getD .null)
  | _ => .error .attrError

/-- `setattr(o, k, v)`, returning the updated object. -/
def setattrO (o : JVal) (k : String) (v : JVal) : Except MErr JVal :=
  match o with
  | .obj c flds => .ok (.obj c (jset flds k v))
  | _ => .error .attrError

/-- Three-argument `getattr(o, k, None)`: never raises. -/
def getattrD3 (o : JVal) (k : String) : JVal :=
  match o with
  | .obj _ flds => (jlookup flds k).getD .null
  | _ => .null

/-- `o.swagger_types` for a model instance: raises `AttributeError` for a
non-model value or an unknown class. -/
def swaggerTypes (env : SchemaEnv) (o : JVal) : Except MErr (List (String × String)) :=
  match o with
  | .obj c _ =>
    match classFields env c with
    | some fs => .ok fs
    | none => .error .attrError
  | _ => .error .attrError

/-- `swagger_types.get(k)`. -/
def swaggerGet (fs : List (String × String)) (k : String) : Option String :=
  match fs.find? (fun p => p.1 == k) with
  | some p => some p.2
  | none => none

/-- `prop_kind.replace('list[', '').replace(']', '')` for a well-formed
`list[T]` type string (the replace-all of `]` only differs on nested bracket
types, which no modelled schema contains). -/
def listElemType (k : String) : String :=
  String.mk ((k.toList.drop 5).dropLast)

/-- `self.attribute_to_snake(key)` of the external openshift helper, modelled
by the repository's own camel-to-snake transform (`to_snake`), which
implements the same boundary rules. -/
def attribute_to_snake (k : String) : String :=
  to_snake k

/-- The demotion scan of `__compare_obj_list` (lookup_plugins/k8s.py lines
591-596): once a candidate key is picked from the class shape, it is kept
only if every request element carries a truthy value for it; the scan stops
at the first element that does not (`.ok false`), and `item.get` on a
non-dict element raises. -/
def keyDemote (k : String) : List JVal → Except MErr Bool
  | [] => .ok true
  | item :: rest =>
    match item with
    | .dict ikvs =>
      if truthy ((jlookup ikvs k).getD .null) then keyDemote k rest else .ok false
    | _ => .error .attrError

/-- The candidate reference key for an object-list merge: the first of
`name`, `type` that the element class possesses (lookup_plugins/k8s.py lines
580-589). -/
def candidateKey (env : SchemaEnv) (objClass : String) : Option String :=
  if hasattrF env objClass "name" then some "name"
  else if hasattrF env objClass "type" then some "type"
  else none

/-- The reference key `__compare_obj_list` ends up using: the candidate key
when the class has one AND every request element provides it truthily,
otherwise `none` (full-field-equality matching). -/
def chosenKey (env : SchemaEnv) (objClass : String) (items : List JVal) :
    Except MErr (Option String) :=
  match candidateKey env objClass with
  | some k =>
    match keyDemote k items with
    | .error e => .error e
    | .ok true => .ok (some k)
    | .ok false => .ok none
  | none => .ok none

/-- One full-field-equality test of the fallback branch (lookup_plugins/k8s.py
lines 666-672): every request field must equal the object's snake-cased
attribute; stops at the first mismatch. -/
def eqMatchOne (o : JVal) : List (String × JVal) → Except MErr Bool
  | [] => .ok true
  | (ik, iv) :: rest =>
    match getattrO o (attribute_to_snake ik) with
    | .error e => .error e
    | .ok v => if !jeq v iv then .ok false else eqMatchOne o rest

/-- Scan of the existing list for a full-field-equality match. -/
def eqScan (ikvs : List (String × JVal)) : List JVal → Except MErr Bool
  | [] => .ok false
  | o :: rest =>
    match eqMatchOne o ikvs with
    | .error e => .error e
    | .ok true => .ok true
    | .ok false => eqScan ikvs rest

mutual

/-- `AnsibleMixin.__set_obj_attribute` (lookup_plugins/k8s.py lines 454-496).
Walks the property path against the object; primitive terminals are assigned,
dict/list terminals merge via `__compare_dict` / `__compare_list` /
`__compare_obj_list`, and an object-typed segment recurses with the remaining
path into a created-or-existing sub-object (the source's `while` loop pops the
shared path list, so after that recursion the loop ends).  The
`try/except ValueError` around primitive assignment guards model-setter
validation, which the embedding's unvalidated assignment never raises. -/
def set_obj_attribute (env : SchemaEnv) : Nat → JVal → List String → JVal → Except MErr JVal
  | 0, _, _, _ => .error .fuel
  | _ + 1, o, [], _ => .ok o
  | fuel + 1, o, raw :: rest, v =>
    let prop := kwGetD raw
    match swaggerTypes env o with
    | .error e => .error e
    | .ok fs =>
      match swaggerGet fs prop with
      | none => .error .keyError
      | some propKind =>
        if PRIMITIVES.contains propKind then
          match setattrO o prop v with
          | .error e => .error e
          | .ok o2 => set_obj_attribute env fuel o2 rest v
        else if strStartsWith propKind ("dict(") then
          match getattrO o prop with
          | .error e => .error e
          | .ok cur =>
            if !truthy cur then
              match setattrO o prop v with
              | .error e => .error e
              | .ok o2 => set_obj_attribute env fuel o2 rest v
            else
              match cur, v with
              | .dict ckvs, .dict vkvs =>
                match compare_dict (fuel + 1) ckvs vkvs with
                | .error e => .error e
                | .ok merged =>
                  match setattrO o prop (.dict merged) with
                  | .error e => .error e
                  | .ok o2 => set_obj_attribute env fuel o2 rest v
              | _, _ => .error .typeError
        else if strStartsWith propKind ("list[") then
          match getattrO o prop with
          | .error e => .error e
          | .ok cur0 =>
            match (if jeq cur0 .null then setattrO o prop (.list []) else .ok o) with
            | .error e => .error e
            | .ok o1 =>
              match getattrO o1 prop with
              | .error e => .error e
              | .ok cur =>
                let objType := listElemType propKind
                if !PRIMITIVES.contains objType && objType != "list" && objType != "dict" then
                  match cur with
                  | .list cs =>
                    match compare_obj_list env fuel cs v objType with
                    | .error e => .error e
                    | .ok merged =>
                      match setattrO o1 prop (.list merged) with
                      | .error e => .error e
                      | .ok o2 => set_obj_attribute env fuel o2 rest v
                  | _ => .error .typeError
                else
                  if !truthy v then set_obj_attribute env fuel o1 rest v
                  else
                    match cur, v with
                    | .list cs, .list vs =>
                      match compare_list cs vs with
                      | .error e => .error e
                      | .ok merged =>
                        match setattrO o1 prop (.list merged) with
                        | .error e => .error e
                        | .ok o2 => set_obj_attribute env fuel o2 rest v
                    | _, _ => .error .typeError
        else
          match getattrO o prop with
          | .error e => .error e
          | .ok sub0 =>
            match (if !truthy sub0 then model_class_from_name env propKind else .ok sub0) with
            | .error e => .error e
            | .ok sub =>
              match set_obj_attribute env fuel sub rest v with
              | .error e => .error e
              | .ok sub2 => setattrO o prop sub2

/-- `AnsibleMixin.__compare_obj_list` (lookup_plugins/k8s.py lines 569-678).
`srcValue` is the existing list of model objects, `requestValue` the supplied
value.  A falsy request returns immediately; a reference key is chosen via
`chosenKey`; the key branch updates every matching existing entry in place
and appends materialized entries for unmatched request elements; the fallback
branch appends exactly the request elements with no full-field-equality
match. -/
def compare_obj_list (env : SchemaEnv) : Nat → List JVal → JVal → String → Except MErr (List JVal)
  | 0, _, _, _ => .error .fuel
  | fuel + 1, srcValue, requestValue, objClass =>
    if !truthy requestValue then .ok srcValue
    else
      match requestValue with
      | .list items =>
        match model_class_from_name env objClass with
        | .error e => .error e
        | .ok _sample =>
          match chosenKey env objClass items with
          | .error e => .error e
          | .ok (some k) => objListKeyLoop env fuel objClass k items srcValue
          | .ok none => objListEqLoop env fuel objClass items srcValue
      | _ => .error .typeError

/-- The per-request-element loop of the key-matching branch
(lookup_plugins/k8s.py lines 598-660), including the
`KubernetesException` raise for an element with a falsy key value (lines
601-608) — the "ambiguous merge target" error. -/
def objListKeyLoop (env : SchemaEnv) : Nat → String → String → List JVal → List JVal →
    Except MErr (List JVal)
  | 0, _, _, _, _ => .error .fuel
  | _ + 1, _, _, [], src => .ok src
  | fuel + 1, objClass, k, item :: rest, src =>
    match item with
    | .dict ikvs =>
      if !truthy ((jlookup ikvs k).getD .null) then .error .ambiguous
      else
        let target := (jlookup ikvs k).getD .null
        match objListScan env fuel objClass k ikvs target src with
        | .error e => .error e
        | .ok (found, src2) =>
          if found then objListKeyLoop env fuel objClass k rest src2
          else
            match model_class_from_name env objClass with
            | .error e => .error e
            | .ok fresh =>
              match update_object_properties env fuel fresh (.dict ikvs) with
              | .error e => .error e
              | .ok newObj => objListKeyLoop env fuel objClass k rest (src2 ++ [newObj])
    | _ => .error .attrError

/-- The scan over the existing list inside the key branch (lookup_plugins/k8s.py
lines 609-656): falsy entries are skipped, and EVERY entry whose key
attribute equals the request element's key value is updated (the source loop
has no `break`). -/
def objListScan (env : SchemaEnv) : Nat → String → String → List (String × JVal) → JVal →
    List JVal → Except MErr (Bool × List JVal)
  | 0, _, _, _, _, _ => .error .fuel
  | _ + 1, _, _, _, _, [] => .ok (false, [])
  | fuel + 1, objClass, k, ikvs, target, o :: restSrc =>
    if !truthy o then
      match objListScan env fuel objClass k ikvs target restSrc with
      | .error e => .error e
      | .ok (found, rest2) => .ok (found, o :: rest2)
    else
      match getattrO o k with
      | .error e => .error e
      | .ok v =>
        if jeq v target then
          match updateMatchedFields env fuel objClass o ikvs with
          | .error e => .error e
          | .ok o2 =>
            match objListScan env fuel objClass k ikvs target restSrc with
            | .error e => .error e
            | .ok (_, rest2) => .ok (true, o2 :: rest2)
        else
          match objListScan env fuel objClass k ikvs target restSrc with
          | .error e => .error e
          | .ok (found, rest2) => .ok (found, o :: rest2)

/-- The field-update loop applied to a matched existing entry
(lookup_plugins/k8s.py lines 616-656), dispatching on the sample class's
swagger type for each request field. -/
def updateMatchedFields (env : SchemaEnv) : Nat → String → JVal → List (String × JVal) →
    Except MErr JVal
  | 0, _, _, _ => .error .fuel
  | _ + 1, _, o, [] => .ok o
  | fuel + 1, objClass, o, (key, value) :: rest =>
    let snakeKey := attribute_to_snake key
    match classFields env objClass with
    | none => .error .attrError
    | some fs =>
      let itemKind := swaggerGet fs snakeKey
      if (match itemKind with
          | some ik => PRIMITIVES.contains ik
          | none => false) || PRIMITIVES.contains (typeName value) then
        match setattrO o snakeKey value with
        | .error e => .error e
        | .ok o2 => updateMatchedFields env fuel objClass o2 rest
      else
        match itemKind with
        | some ik =>
          if strStartsWith ik ("list[") then
            match getattrO o snakeKey with
            | .error e => .error e
            | .ok cur0 =>
              match (if jeq cur0 .null then setattrO o snakeKey (.list []) else .ok o) with
              | .error e => .error e
              | .ok o1 =>
                match getattrO o1 snakeKey with
                | .error e => .error e
                | .ok cur =>
                  let objType := listElemType ik
                  if objType != "str" && objType != "int" && objType != "bool" then
                    match cur with
                    | .list cs =>
                      match compare_obj_list env fuel cs value objType with
                      | .error e => .error e
                      | .ok merged =>
                        match setattrO o1 snakeKey (.list merged) with
                        | .error e => .error e
                        | .ok o2 => updateMatchedFields env fuel objClass o2 rest
                    | _ => .error .typeError
                  else
                    if !truthy value then updateMatchedFields env fuel objClass o1 rest
                    else
                      match cur, value with
                      | .list cs, .list vs =>
                        match compare_list cs vs with
                        | .error e => .error e
                        | .ok merged =>
                          match setattrO o1 snakeKey (.list merged) with
                          | .error e => .error e
                          | .ok o2 => updateMatchedFields env fuel objClass o2 rest
                      | _, _ => .error .typeError
          else if strStartsWith ik ("dict(") then
            if !truthy value then updateMatchedFields env fuel objClass o rest
            else
              match getattrO o snakeKey with
              | .error e => .error e
              | .ok cur =>
                match cur, value with
                | .dict ckvs, .dict vkvs =>
                  match compare_dict (fuel + 1) ckvs vkvs with
                  | .error e => .error e
                  | .ok merged =>
                    match setattrO o snakeKey (.dict merged) with
                    | .error e => .error e
                    | .ok o2 => updateMatchedFields env fuel objClass o2 rest
                | _, _ => .error .typeError
          else if typeName value == "dict" then
            match getattrO o snakeKey with
            | .error e => .error e
            | .ok cur =>
              match (if !truthy cur then
                      match model_class_from_name env ik with
                      | .error e => .error e
                      | .ok fresh => setattrO o snakeKey fresh
                     else Except.ok o) with
              | .error e => .error e
              | .ok o1 =>
                match getattrO o1 snakeKey with
                | .error e => .error e
                | .ok pobj =>
                  match update_object_properties env fuel pobj value with
                  | .error e => .error e
                  | .ok p2 =>
                    match setattrO o1 snakeKey p2 with
                    | .error e => .error e
                    | .ok o2 => updateMatchedFields env fuel objClass o2 rest
          else .error .unimplemented
        | none => .error .unknownProp

/-- The fallback per-request-element loop of `__compare_obj_list`
(lookup_plugins/k8s.py lines 661-678): full-field-equality matching; matched
elements are left untouched, unmatched request elements are materialized and
appended. -/
def objListEqLoop (env : SchemaEnv) : Nat → String → List JVal → List JVal →
    Except MErr (List JVal)
  | 0, _, _, _ => .error .fuel
  | _ + 1, _, [], src => .ok src
  | fuel + 1, objClass, item :: rest, src =>
    match item with
    | .dict ikvs =>
      match eqScan ikvs src with
      | .error e => .error e
      | .ok true => objListEqLoop env fuel objClass rest src
      | .ok false =>
        match model_class_from_name env objClass with
        | .error e => .error e
        | .ok fresh =>
          match update_object_properties env fuel fresh (.dict ikvs) with
          | .error e => .error e
          | .ok newObj => objListEqLoop env fuel objClass rest (src ++ [newObj])
    | _ => .error .attrError

/-- `AnsibleMixin.__update_object_properties` (lookup_plugins/k8s.py lines
680-703): recursively writes a request dict onto a model object. -/
def update_object_properties (env : SchemaEnv) : Nat → JVal → JVal → Except MErr JVal
  | 0, _, _ => .error .fuel
  | fuel + 1, o, item =>
    match item with
    | .dict ikvs => updatePropsLoop env fuel o ikvs
    | _ => .error .attrError

/-- The per-field loop of `__update_object_properties`; a missing
`swagger_types` entry raises the "unable to find property"`KubernetesException`
(lines 686-694). -/
def updatePropsLoop (env : SchemaEnv) : Nat → JVal → List (String × JVal) →
    Except MErr JVal
  | 0, _, _ => .error .fuel
  | _ + 1, o, [] => .ok o
  | fuel + 1, o, (key, value) :: rest =>
    let snakeKey := attribute_to_snake key
    match swaggerTypes env o with
    | .error _ => .error .unknownProp
    | .ok fs =>
      match swaggerGet fs snakeKey with
      | none => .error .unknownProp
      | some kind =>
        if PRIMITIVES.contains kind || strStartsWith kind ("list[") || strStartsWith kind ("dict(") then
          match set_obj_attribute env fuel o [snakeKey] value with
          | .error e => .error e
          | .ok o2 => updatePropsLoop env fuel o2 rest
        else
          match getattrO o snakeKey with
          | .error e => .error e
          | .ok cur =>
            match (if !truthy cur then
                    match model_class_from_name env kind with
                    | .error e => .error e
                    | .ok fresh => setattrO o snakeKey fresh
                   else Except.ok o) with
            | .error e => .error e
            | .ok o1 =>
              match getattrO o1 snakeKey with
              | .error e => .error e
              | .ok sub =>
                match update_object_properties env fuel sub value with
                | .error e => .error e
                | .ok sub2 =>
                  match setattrO o1 snakeKey sub2 with
                  | .error e => .error e
                  | .ok o2 => updatePropsLoop env fuel o2 rest

end

/-- One supplied module parameter together with its argspec entry (the
`find_arg_spec` result): parameter name, the `property_path` of its spec, and
the supplied value (`null` = not supplied, skipped by the loop). -/
structure Param where
  name : String
  property_path : List String
  value : JVal

/-- The mixin state `object_from_params` reads: the schema environment, the
(snake-cased) kind, the api_version, and the model class of the kind. -/
structure MixinCtx where
  env : SchemaEnv
  kind : String
  api_version : String
  modelClass : String

/-- `module_params.get(name)`, over the supplied parameter list. -/
def paramValue (params : List Param) (n : String) : JVal :=
  match params.find? (fun p => p.name == n) with
  | some p => p.value
  | none => .null

/-- The main loop of `object_from_params` (lookup_plugins/k8s.py lines
326-330): apply every supplied, pathed parameter via `__set_obj_attribute`. -/
def objFromParamsLoop (env : SchemaEnv) (fuel : Nat) : List Param → JVal → Except MErr JVal
  | [], o => .ok o
  | p :: rest, o =>
    if !jeq p.value .null && !p.property_path.isEmpty then
      match set_obj_attribute env fuel o p.property_path p.value with
      | .error e => .error e
      | .ok o2 => objFromParamsLoop env fuel rest o2
    else objFromParamsLoop env fuel rest o


/-- `string_utils.snake_case_to_camel` (external library): returns the input
unchanged when it is not snake-cased (no underscore), otherwise joins the
segments, capitalizing each but — when `upper_case_first` is false — the
first. -/
def capitalizeSeg : List Char → List Char
  | [] => []
  | c :: r => c.toUpper :: r

/-- See `capitalizeSeg`; the external `string_utils.snake_case_to_camel`. -/
def snake_case_to_camel (s : String) (upperFirst : Bool) : String :=
  if !s.toList.contains '_' then s
  else
    match s.toList.splitOn '_' with
    | [] => s
    | first :: rest =>
      String.mk ((if upperFirst then capitalizeSeg first else first)
        ++ (rest.map capitalizeSeg).flatten)

/-- Set one fixed annotation key under `obj.metadata.annotations` when the
parameter is truthy (the body of the two `if`s in the `Project` special
case). -/
def annSet (md : JVal) (key : String) (v : JVal) : Except MErr JVal :=
  if !truthy v then .ok md
  else
    match getattrO md "annotations" with
    | .error e => .error e
    | .ok (.dict anns) => setattrO md "annotations" (.dict (jset anns key v))
    | .ok _ => .error .typeError

/-- The `Project` special case of `object_from_params` (lookup_plugins/k8s.py
lines 332-339): `display_name`/`description` are written into the two fixed
`openshift.io/...` annotation keys under `metadata` (an unset `metadata`
raises `AttributeError`, as in the source). -/
def projectSpecialCase (params : List Param) (o : JVal) : Except MErr JVal :=
  match getattrO o "metadata" with
  | .error e => .error e
  | .ok md =>
    match getattrO md "annotations" with
    | .error e => .error e
    | .ok ann =>
      match (if !truthy ann then setattrO md "annotations" (.dict []) else Except.ok md) with
      | .error e => .error e
      | .ok md1 =>
        match annSet md1 "openshift.io/display-name" (paramValue params "display_name") with
        | .error e => .error e
        | .ok md2 =>
          match annSet md2 "openshift.io/description" (paramValue params "description") with
          | .error e => .error e
          | .ok md3 => setattrO o "metadata" md3

/-- The `obj.data[key] = base64.b64encode(value)` loop of the `Secret`
special case; each `string_data` value must be a string. -/
def secretDataLoop (dk : List (String × JVal)) : List (String × JVal) →
    Except MErr (List (String × JVal))
  | [] => .ok dk
  | (k, v) :: rest =>
    match v with
    | .str s => secretDataLoop (jset dk k (.str (b64encode s))) rest
    | _ => .error .typeError

/-- The `Secret` special case of `object_from_params` (lookup_plugins/k8s.py
lines 340-351): base64-encode `string_data` into `data`, then clear
`string_data`, so that diffing against a server object does not register a
spurious change. -/
def secretSpecialCase (env : SchemaEnv) (o : JVal) : Except MErr JVal :=
  let sd := getattrD3 o "string_data"
  let hasData := match o with
    | .obj c _ => hasattrF env c "data"
    | _ => false
  if truthy sd && hasData then
    match getattrO o "data" with
    | .error e => .error e
    | .ok data0 =>
      match (if jeq data0 .null then setattrO o "data" (.dict []) else Except.ok o) with
      | .error e => .error e
      | .ok o1 =>
        match sd with
        | .dict sdkvs =>
          match getattrO o1 "data" with
          | .error e => .error e
          | .ok (.dict dk) =>
            match secretDataLoop dk sdkvs with
            | .error e => .error e
            | .ok dk2 =>
              match setattrO o1 "data" (.dict dk2) with
              | .error e => .error e
              | .ok o2 => setattrO o2 "string_data" .null
          | .ok _ => .error .typeError
        | _ => .error .attrError
  else .ok o

/-- `AnsibleMixin.object_from_params` (lookup_plugins/k8s.py lines 314-352).
`obj` is the object to update (`null` = not passed: a fresh model instance is
created and its `kind`/`api_version` set).  Each supplied parameter with a
`property_path` is applied via `__set_obj_attribute`; then the `Project` and
`Secret` business rules run. -/
def object_from_params (ctx : MixinCtx) (fuel : Nat) (params : List Param)
    (obj : JVal) : Except MErr JVal :=
  let base : Except MErr JVal :=
    if !truthy obj then
      match setattrO (.obj ctx.modelClass []) "kind"
          (.str (snake_case_to_camel ctx.kind false)) with
      | .error e => .error e
      | .ok o1 => setattrO o1 "api_version" (.str (strToLower ctx.api_version))
    else .ok obj
  match base with
  | .error e => .error e
  | .ok o0 =>
    match objFromParamsLoop ctx.env fuel params o0 with
    | .error e => .error e
    | .ok o1 =>
      if strToLower ctx.kind == "project"
          && (truthy (paramValue params "display_name")
              || truthy (paramValue params "description")) then
        projectSpecialCase params o1
      else if strToLower ctx.kind == "secret" then
        secretSpecialCase ctx.env o1
      else .ok o1

/-- The action `execute_module` decides on (the external CRUD operation it
invokes, or the no-op / read-only outcome). -/
inductive DriverAction where
  | noop : DriverAction
  | create : DriverAction
  | replace : DriverAction
  | patch : DriverAction
  | delete : DriverAction
  | readList : DriverAction
deriving DecidableEq

/-- What one invocation of `execute_module` reports through `exit_json`:
the `changed` flag, the `result` value, plus — for the theorems — which
action was decided and whether the external call was actually made (false
exactly when check mode skips a mutating call). -/
structure ModResult where
  changed : Bool
  result : JVal
  action : DriverAction
  apiCalled : Bool

/-- The helper collaborator of `KubernetesRawModule` (injected as
`self.helper`): whether the kind is a `...List` kind, the request body built
from the parameters, and the materializer
`object_from_params(self.params, obj=...)` applied to a copy of the existing
object.  For concrete runs it is instantiated with `object_from_params`
above. -/
structure Helper where
  isListKind : Bool
  requestBody : Except MErr JVal
  materialize : JVal → Except MErr JVal

/-- `self.helper.fix_serialization(existing)` of the external openshift
helper, the identity on the embedded value. -/
def fix_serialization (o : JVal) : JVal :=
  o

/-- Modelled from the spec: `objects_match` of the external openshift helper
(called at module_utils/k8s/raw.py line 200) is not part of this repository;
per spec.md §4.5 `isMatch` is true iff the merge produced zero observable
field-level changes, i.e. the serialized existing object equals the
materialized candidate. -/
def objects_match (a b : JVal) : Bool :=
  jeq a b

/-- `KubernetesRawModule.execute_module` (module_utils/k8s/raw.py lines
135-212) and `_create`/`_read` (lines 214-236).  `existing` is what the
helper's `get_object` returned (`none`: 404/not found).  The external CRUD
collaborators are drift-free: `create`/`replace` return the request body they
were given, `patch` returns the patched object.  In check mode the mutating
call is skipped, leaving `k8s_obj = None`, so the `create` and `force`
branches then crash on `k8s_obj.to_dict()` (`noneType`). -/
def execute_module (h : Helper) (state : String) (force checkMode : Bool)
    (existing : Option JVal) : Except MErr ModResult :=
  if h.isListKind then
    match existing with
    | none => .error .noneType
    | some o => .ok ⟨false, o, .readList, true⟩
  else if state == "absent" then
    match existing with
    | none => .ok ⟨false, .dict [], .noop, false⟩
    | some _ => .ok ⟨true, .dict [], .delete, !checkMode⟩
  else
    match existing with
    | none =>
      match h.requestBody with
      | .error e => .error e
      | .ok body =>
        if checkMode then .error .noneType
        else .ok ⟨true, body, .create, true⟩
    | some existingObj =>
      if force then
        match h.requestBody with
        | .error e => .error e
        | .ok body =>
          if checkMode then .error .noneType
          else .ok ⟨true, body, .replace, true⟩
      else
        match h.materialize existingObj with
        | .error e => .error e
        | .ok k8sObj =>
          if objects_match (fix_serialization existingObj) k8sObj then
            .ok ⟨false, existingObj, .noop, false⟩
          else .ok ⟨true, k8sObj, .patch, !checkMode⟩

/-- The server state after one reported invocation, assuming no external
drift (spec.md §8's idempotence property is stated under exactly this
assumption): mutating actions leave what they wrote, the rest leave the
server untouched. -/
def serverAfter (existing : Option JVal) (r : ModResult) : Option JVal :=
  match r.action with
  | .create => some r.result
  | .replace => some r.result
  | .patch => some r.result
  | .delete => none
  | .noop => existing
  | .readList => existing

/-- Two reconciliation passes with the same parameters and no external
drift; returns the two `changed` flags. -/
def runTwice (h : Helper) (state : String) (force checkMode : Bool)
    (existing : Option JVal) : Except MErr (Bool × Bool) :=
  match execute_module h state force checkMode existing with
  | .error e => .error e
  | .ok r1 =>
    match execute_module h state force checkMode (serverAfter existing r1) with
    | .error e => .error e
    | .ok r2 => .ok (r1.changed, r2.changed)

/-- `remove_secret_data` of module_utils/k8s/common.py (lines 48-61): the
entire body is commented out and the function is `pass` — the identity. -/
def common_remove_secret_data (objDict : JVal) : JVal :=
  objDict

/-- The transformation `KubernetesAnsibleModule.exit_json`
(module_utils/k8s/common.py lines 97-106) applies to the `result` entry of
the return attributes before handing them to the framework.  For `Secret`/
`SecretList` kinds it calls `common_remove_secret_data` on the result or on
each of its items; since that function is a no-op, nothing is written back
(the `for` loop over `items` binds and discards, which the model folds into
a no-op). -/
def common_exit_json_result (r : JVal) : Except LookErr JVal :=
  if !truthy r then .ok r
  else
    match r with
    | .dict kvs =>
      let kind := (jlookup kvs "kind").getD .null
      if jeq kind (.str "Secret") || jeq kind (.str "SecretList") then
        if truthy ((jlookup kvs "data").getD .null) then
          .ok (common_remove_secret_data (.dict kvs))
        else .ok (.dict kvs)
      else .ok (.dict kvs)
    | _ => .error .attrError

/-- The metadata annotation keys of a returned object (empty when the object
has no dict-shaped `metadata.annotations`). -/
def annKeys (r : JVal) : List String :=
  match r with
  | .dict kvs =>
    match jlookup kvs "metadata" with
    | some (.dict md) =>
      match jlookup md "annotations" with
      | some (.dict anns) => anns.map (fun p => p.1)
      | _ => []
    | _ => []
  | _ => []

/-- What `remove_secret_data` actually guarantees about its output: no truthy
`data` or `string_data` entry, and no annotation key containing the substring
`secret`. -/
def secretClean (r : JVal) : Bool :=
  !truthy (jgetD r "data") && !truthy (jgetD r "string_data")
    && (annKeys r).all (fun k => !strContains k "secret")

/-- A generic helper collaborator for witnesses: a non-list kind whose request
body is an empty dict and whose materializer returns its input unchanged. -/
def cHelper : Helper :=
  ⟨false, .ok (.dict []), fun e => .ok e⟩

/-- A helper for a `...List` kind (`base_model_name_snake.endswith('list')`),
used to exercise the read-only short-circuit of `execute_module`. -/
def c1ListHelper : Helper :=
  ⟨true, .ok (.dict []), fun e => .ok e⟩

/-- A helper whose materializer always reports a changed candidate distinct
from the existing object. -/
def c1DiffHelper : Helper :=
  ⟨false, .ok (.dict [("kind", .str "Widget")]), fun _ => .ok (.dict [("x", .int 1)])⟩

/-- Schema for the second-run idempotence evaluation: one kind `Widget` with
one free-form map field `config`. -/
def c2Env : SchemaEnv :=
  ⟨[("Widget", [("config", "dict(str, object)")])]⟩

/-- Mixin context for the `Widget` kind. -/
def c2Ctx : MixinCtx :=
  ⟨c2Env, "widget", "v1", "Widget"⟩

/-- One supplied parameter: `config = {"k": [{"a": 1}]}` — a dict parameter
whose value contains a list of dicts. -/
def c2Params : List Param :=
  [⟨"config", ["config"], .dict [("k", .list [.dict [("a", .int 1)]])]⟩]

/-- The concrete helper for the idempotence evaluation: materializes the
`c2Params` onto the (copied) existing object via `object_from_params`. -/
def c2Helper : Helper :=
  ⟨false, .ok (.dict [("kind", .str "Widget")]),
   fun e => object_from_params c2Ctx 30 c2Params e⟩

/-- A server object already carrying exactly the supplied `config` value (no
external drift from a prior converged run). -/
def c2Existing : JVal :=
  .obj "Widget" [("config", .dict [("k", .list [.dict [("a", .int 1)]])])]

/-- A Secret object as the API can return it: an empty (falsy) `data` map and
empty metadata. -/
def c4SecretDict : JVal :=
  .dict [("kind", .str "Secret"), ("data", .dict []), ("metadata", .dict [])]

/-- Schema for the object-list merge: the element class `Thing` has a `name`
field (so a reference key is available) and an integer `v`. -/
def c5Env : SchemaEnv :=
  ⟨[("Thing", [("name", "str"), ("v", "int")])]⟩

/-- A method table where only the all-namespaces list operation exists. -/
def c7methods (m : String) : Option (Option JVal) :=
  if m == "list_foo_for_all_namespaces" then some none else none

/-! ### Basic lemmas about the embedded Python values -/

mutual

theorem jeq_iff : ∀ a b, jeq a b = true ↔ a = b
  | .null, b => by cases b <;> simp [jeq]
  | .bool a, b => by cases b <;> simp [jeq]
  | .int a, b => by cases b <;> simp [jeq]
  | .str a, b => by cases b <;> simp [jeq]
  | .list xs, b => by
      cases b <;> simp [jeq]
      exact jeqL_iff xs _
  | .dict kvs, b => by
      cases b <;> simp [jeq]
      exact jeqK_iff kvs _
  | .obj c f, b => by
      cases b <;> simp [jeq]
      intro _
      exact jeqK_iff f _

theorem jeqL_iff : ∀ a b, jeqL a b = true ↔ a = b
  | [], b => by cases b <;> simp [jeqL]
  | a :: as_, b => by
      cases b with
      | nil => simp [jeqL]
      | cons bh bt => simp [jeqL, jeq_iff a bh, jeqL_iff as_ bt]

theorem jeqK_iff : ∀ a b, jeqK a b = true ↔ a = b
  | [], b => by cases b <;> simp [jeqK]
  | (k, v) :: as_, b => by
      cases b with
      | nil => simp [jeqK]
      | cons bh bt =>
        cases bh with
        | mk k2 v2 => simp [jeqK, jeq_iff v v2, jeqK_iff as_ bt, and_assoc]

end

theorem jeq_refl (a : JVal) : jeq a a = true :=
  (jeq_iff a a).mpr rfl

theorem jeq_false_iff (a b : JVal) : jeq a b = false ↔ a ≠ b := by
  constructor
  · intro h hab
    rw [hab, jeq_refl] at h
    cases h
  · intro h
    cases hj : jeq a b
    · rfl
    · exact absurd ((jeq_iff a b).mp hj) h

theorem jlookup_jset_self (kvs : List (String × JVal)) (k : String) (v : JVal) :
    jlookup (jset kvs k v) k = some v := by
  induction kvs with
  | nil => simp [jset, jlookup]
  | cons hd t ih =>
    obtain ⟨k3, v3⟩ := hd
    by_cases hk : k3 = k
    · simp [jset, jlookup, hk]
    · simp [jset, jlookup, hk, ih]

theorem jlookup_jset_ne (kvs : List (String × JVal)) (k k2 : String) (v : JVal)
    (h : k2 ≠ k) : jlookup (jset kvs k v) k2 = jlookup kvs k2 := by
  induction kvs with
  | nil =>
    have : ¬(k = k2) := fun hh => h hh.symm
    simp [jset, jlookup, this]
  | cons hd t ih =>
    obtain ⟨k3, v3⟩ := hd
    by_cases hk : k3 = k
    · subst hk
      have : ¬(k3 = k2) := fun hh => h hh.symm
      simp [jset, jlookup, this]
    · simp only [jset, beq_iff_eq, hk, if_false]
      by_cases hk2 : k3 = k2
      · simp [jlookup, hk2]
      · simp [jlookup, hk2, ih]

theorem jlookup_jremove_self (kvs : List (String × JVal)) (k : String) :
    jlookup (jremove kvs k) k = none := by
  induction kvs with
  | nil => simp [jremove, jlookup]
  | cons hd t ih =>
    obtain ⟨k3, v3⟩ := hd
    by_cases hk : k3 = k
    · simpa [jremove, hk] using ih
    · have hb : (k3 == k) = false := beq_eq_false_iff_ne.mpr hk
      simp only [jremove] at ih ⊢
      simp [List.filter, hb, jlookup, ih]

theorem jlookup_jremove_ne (kvs : List (String × JVal)) (k k2 : String)
    (h : k2 ≠ k) : jlookup (jremove kvs k) k2 = jlookup kvs k2 := by
  induction kvs with
  | nil => simp [jremove]
  | cons hd t ih =>
    obtain ⟨k3, v3⟩ := hd
    by_cases hk : k3 = k
    · subst hk
      have hne : ¬(k3 = k2) := fun hh => h hh.symm
      simp only [jremove] at ih ⊢
      simp [List.filter, jlookup, hne, ih]
    · have hb : (k3 == k) = false := beq_eq_false_iff_ne.mpr hk
      simp only [jremove] at ih ⊢
      have hbb : (k2 == k) = false := beq_eq_false_iff_ne.mpr h
      by_cases hk2 : k3 = k2
      · subst hk2
        simp [List.filter, hbb, jlookup]
      · simp [List.filter, hb, jlookup, hk2, ih]

theorem jlookup_jset_isSome (kvs : List (String × JVal)) (k k2 : String) (v : JVal)
    (h : (jlookup kvs k2).isSome = true) : (jlookup (jset kvs k v) k2).isSome = true := by
  by_cases hk : k2 = k
  · subst hk
    simp [jlookup_jset_self]
  · rwa [jlookup_jset_ne kvs k k2 v hk]

/-! ### C9 — the reserved-word naming map -/

theorem kwGet_some_mem (s t : String) (h : kwGet s = some t) :
    (s, t) ∈ PYTHON_KEYWORD_MAPPING := by
  unfold kwGet at h
  cases hfind : PYTHON_KEYWORD_MAPPING.find? (fun p => p.1 == s) with
  | none => rw [hfind] at h; cases h
  | some q =>
    rw [hfind] at h
    injection h with ht
    have hmem := List.mem_of_find?_eq_some hfind
    have hq := List.find?_some hfind
    obtain ⟨q1, q2⟩ := q
    simp only [beq_iff_eq] at hq
    simp only at ht
    rw [hq, ht] at hmem
    exact hmem

theorem kw_mem_cases (s t : String) (hmem : (s, t) ∈ PYTHON_KEYWORD_MAPPING) :
    (∃ k, k ∈ kwlist ∧ s = "_" ++ k ∧ t = k)
    ∨ (∃ k, k ∈ kwlist ∧ s = k ∧ t = "_" ++ k) := by
  unfold PYTHON_KEYWORD_MAPPING at hmem
  rcases List.mem_append.mp hmem with hfwd | hrev
  · left
    unfold kwPairs at hfwd
    obtain ⟨k, hk, heq⟩ := List.mem_map.mp hfwd
    have h1 : "_" ++ k = s := congrArg Prod.fst heq
    have h2 : k = t := congrArg Prod.snd heq
    exact ⟨k, hk, h1.symm, h2.symm⟩
  · right
    obtain ⟨q, hq, heq⟩ := List.mem_map.mp hrev
    unfold kwPairs at hq
    obtain ⟨k, hk, hqk⟩ := List.mem_map.mp hq
    obtain ⟨q1, q2⟩ := q
    have h1 : "_" ++ k = q1 := congrArg Prod.fst hqk
    have h2 : k = q2 := congrArg Prod.snd hqk
    have h3 : q2 = s := congrArg Prod.fst heq
    have h4 : q1 = t := congrArg Prod.snd heq
    exact ⟨k, hk, (h2.trans h3).symm, (h1.trans h4).symm⟩

/-- C9: the reserved-word naming map is a total bijection over the
reserved-word set: it maps `'_' + k` to `k` and `k` to `'_' + k` for every
Python keyword `k`, it is defined on exactly those identifiers, and it is its
own inverse wherever defined (so applying it twice is the identity). -/
theorem python_keyword_mapping_total_bijection :
    (∀ k, k ∈ kwlist → kwGet ("_" ++ k) = some k ∧ kwGet k = some ("_" ++ k))
    ∧ (∀ s t, kwGet s = some t → kwGet t = some s)
    ∧ (∀ s, (kwGet s).isSome ↔ s ∈ kwlist ∨ ∃ k, k ∈ kwlist ∧ s = "_" ++ k) := by
  have base : ∀ k, k ∈ kwlist → kwGet ("_" ++ k) = some k ∧ kwGet k = some ("_" ++ k) := by
    decide
  refine ⟨base, ?_, ?_⟩
  · intro s t h
    rcases kw_mem_cases s t (kwGet_some_mem s t h) with ⟨k, hk, hs, ht⟩ | ⟨k, hk, hs, ht⟩
    · rw [ht, (base k hk).2, ← hs]
    · rw [ht, (base k hk).1, ← hs]
  · intro s
    constructor
    · intro hsome
      obtain ⟨t, ht⟩ := Option.isSome_iff_exists.mp hsome
      rcases kw_mem_cases s t (kwGet_some_mem s t ht) with ⟨k, hk, hs, _⟩ | ⟨k, hk, hs, _⟩
      · exact Or.inr ⟨k, hk, hs⟩
      · exact Or.inl (hs ▸ hk)
    · intro hcase
      rcases hcase with hmem | ⟨k, hk, hs⟩
      · rw [(base s hmem).2]; rfl
      · rw [hs, (base k hk).1]; rfl

/-- Witness for C9 at the keyword `lambda`. -/
theorem python_keyword_mapping_total_bijection_witness :
    kwGet "_lambda" = some "lambda" ∧ kwGet "lambda" = some "_lambda" :=
  python_keyword_mapping_total_bijection.1 "lambda" (by decide)

/-! ### C10 — the module_utils variant never strips secret data -/

/-- C10: in the module_utils variant (common.py), `remove_secret_data` is a
no-op (`pass` body), so `exit_json` returns every result dict unchanged:
`data`, `string_data` and secret-bearing annotation keys are never stripped
from module output. -/
theorem common_exit_json_returns_result_unchanged :
    (∀ o, common_remove_secret_data o = o)
    ∧ (∀ kvs, common_exit_json_result (.dict kvs) = .ok (.dict kvs)) := by
  refine ⟨fun o => rfl, fun kvs => ?_⟩
  show (if (!truthy (JVal.dict kvs)) = true then Except.ok (JVal.dict kvs)
        else if (jeq ((jlookup kvs "kind").getD .null) (.str "Secret")
                 || jeq ((jlookup kvs "kind").getD .null) (.str "SecretList")) = true then
               if truthy ((jlookup kvs "data").getD .null) = true then
                 Except.ok (common_remove_secret_data (.dict kvs))
               else Except.ok (.dict kvs)
             else Except.ok (.dict kvs)) = Except.ok (.dict kvs)
  split_ifs <;> rfl

/-! ### C7 — list-operation resolution order -/

/-- Counterexample to C7 as stated: with a namespace given and only the
all-namespaces list operation available, the spec's claimed fallback order
resolves `list_foo_for_all_namespaces`, but `list_objects` fails without
trying any fallback. -/
theorem list_fallback_counterexample :
    claimedListResolve "foo" c7methods = some "list_foo_for_all_namespaces"
    ∧ list_objects "foo" (some "ns") c7methods = .error .methodNotFound :=
  ⟨rfl, rfl⟩

/-- C7 amended: when a namespace is given, only the namespace-scoped list
operation is tried and its absence is fatal (no fallback); only when the
namespace is omitted does resolution try the all-namespaces operation and
then fall back to the un-scoped one, failing when neither exists. -/
theorem list_operation_resolution_amended :
    (∀ kind n methods, methods ("list_namespaced_" ++ kind) = none →
        list_objects kind (some n) methods = .error .methodNotFound)
    ∧ (∀ kind n methods r, methods ("list_namespaced_" ++ kind) = some r →
        lookup_list_method kind (some n) methods = some r)
    ∧ (∀ kind methods, methods ("list_" ++ kind ++ "_for_all_namespaces") = none →
        methods ("list_" ++ kind) = none →
        list_objects kind none methods = .error .methodNotFound)
    ∧ (∀ kind methods r, methods ("list_" ++ kind ++ "_for_all_namespaces") = some r →
        lookup_list_method kind none methods = some r)
    ∧ (∀ kind methods r, methods ("list_" ++ kind ++ "_for_all_namespaces") = none →
        methods ("list_" ++ kind) = some r →
        lookup_list_method kind none methods = some r) := by
  refine ⟨?_, ?_, ?_, ?_, ?_⟩
  · intro kind n methods h
    unfold list_objects lookup_list_method
    rw [h]
  · intro kind n methods r h
    unfold lookup_list_method
    rw [h]
  · intro kind methods h1 h2
    unfold list_objects lookup_list_method
    rw [h1, h2]
  · intro kind methods r h
    unfold lookup_list_method
    rw [h]
  · intro kind methods r h1 h2
    unfold lookup_list_method
    rw [h1, h2]

/-- Witness for C7's amended theorem: concrete resolutions. -/
theorem list_operation_resolution_amended_witness :
    list_objects "foo" (some "x") (fun _ => none) = .error .methodNotFound
    ∧ lookup_list_method "foo" none c7methods = some none :=
  ⟨list_operation_resolution_amended.1 "foo" "x" (fun _ => none) rfl,
   list_operation_resolution_amended.2.2.2.1 "foo" c7methods none rfl⟩

/-! ### C8 — union merge of primitive lists -/

/-- Counterexample to C8 as stated: when the existing list itself contains a
duplicate (`[a, b]` with `a = b`), the claimed "no duplicates" fails — the
merge of `[0, 0]` with `[0, 1]` yields `[0, 0, 1]`. -/
theorem list_merge_union_counterexample :
    compare_list [.int 0, .int 0] [.int 0, .int 1] = .ok [.int 0, .int 0, .int 1]
    ∧ ¬ (List.Nodup [JVal.int 0, JVal.int 0, JVal.int 1]) :=
  ⟨rfl, fun h => (List.nodup_cons.mp h).1 (List.mem_cons_self _ _)⟩

/-- C8 amended: merging an existing list `[a, b]` of primitives with a
supplied `[b, c]` appends exactly the distinct supplied elements missing from
the existing list and removes nothing, so — provided the existing list is
duplicate-free (`a ≠ b`) — the result's element set is `{a, b, c}` and the
result has no duplicates. -/
theorem list_merge_union_amended (a b c : JVal)
    (hprim : PRIMITIVES.contains (typeName a) = true)
    (ha : isHashable a = true) (hb : isHashable b = true) (hc : isHashable c = true)
    (hab : a ≠ b) :
    ∃ res, compare_list [a, b] [b, c] = .ok res
      ∧ (∀ x, x ∈ res ↔ x = a ∨ x = b ∨ x = c)
      ∧ res.Nodup := by
  have hbb : jeq b b = true := jeq_refl b
  have hba : jeq b a = false := jeq_false_iff b a |>.mpr (fun hba => hab hba.symm)
  have hstep : compare_list [a, b] [b, c] =
      (if jeq c a || jeq c b then .ok [a, b]
       else .ok [a, b, c]) := by
    unfold compare_list
    simp only [List.isEmpty_cons, Bool.false_eq_true, if_false, hprim, if_true,
      List.cons_append, List.nil_append, List.all_cons, List.all_nil, ha, hb, hc,
      Bool.and_true, Bool.and_self, Bool.not_true, List.any_cons, List.any_nil,
      hba, hbb, Bool.false_or, Bool.or_false, Bool.true_and]
    by_cases hco : (jeq c a || jeq c b) = true
    · simp [hco]
    · have hca : jeq c a = false := by
        cases h1 : jeq c a
        · rfl
        · exact absurd (by rw [h1]; simp) hco
      have hcb : jeq c b = false := by
        cases h1 : jeq c b
        · rfl
        · exact absurd (by rw [h1]; simp) hco
      simp [hca, hcb, hba, hbb, List.filter_cons, dedupAux]
  by_cases hco : (jeq c a || jeq c b) = true
  · refine ⟨[a, b], by rw [hstep]; simp [hco], ?_, by simp [hab]⟩
    intro x
    have hcab : c = a ∨ c = b := by
      rcases Bool.or_eq_true_iff.mp hco with h1 | h1
      · exact Or.inl ((jeq_iff c a).mp h1)
      · exact Or.inr ((jeq_iff c b).mp h1)
    constructor
    · intro hx
      rcases List.mem_pair.mp hx with h | h
      · exact Or.inl h
      · exact Or.inr (Or.inl h)
    · intro hx
      rcases hx with h | h | h
      · exact List.mem_pair.mpr (Or.inl h)
      · exact List.mem_pair.mpr (Or.inr h)
      · rcases hcab with hc2 | hc2
        · exact List.mem_pair.mpr (Or.inl (h.trans hc2))
        · exact List.mem_pair.mpr (Or.inr (h.trans hc2))
  · have hca : jeq c a = false := by
      cases h1 : jeq c a
      · rfl
      · exact absurd (by rw [h1]; simp) hco
    have hcb : jeq c b = false := by
      cases h1 : jeq c b
      · rfl
      · exact absurd (by rw [h1]; simp) hco
    have hcam : c ≠ a := (jeq_false_iff c a).mp hca
    have hcbm : c ≠ b := (jeq_false_iff c b).mp hcb
    refine ⟨[a, b, c], by rw [hstep]; simp [hco], ?_, ?_⟩
    · intro x
      simp only [List.mem_cons, List.not_mem_nil, or_false]
    · refine List.nodup_cons.mpr ⟨?_, List.nodup_cons.mpr ⟨?_, List.nodup_singleton _⟩⟩
      · intro hmem
        rcases List.mem_cons.mp hmem with h | h
        · exact hab h
        · exact hcam ((List.mem_singleton.mp h).symm)
      · intro hmem
        exact hcbm ((List.mem_singleton.mp hmem).symm)

/-- Witness for C8's amended theorem at `0`, `1`, `2`. -/
theorem list_merge_union_amended_witness :
    ∃ res, compare_list [.int 0, .int 1] [.int 1, .int 2] = .ok res
      ∧ (∀ x, x ∈ res ↔ x = JVal.int 0 ∨ x = JVal.int 1 ∨ x = JVal.int 2)
      ∧ res.Nodup :=
  list_merge_union_amended (.int 0) (.int 1) (.int 2) rfl rfl rfl rfl (by simp)

/-! ### C3 — merge monotonicity -/

theorem compare_list_src_prefix (src req res : List JVal)
    (h : compare_list src req = .ok res) : ∃ tail, res = src ++ tail := by
  cases src with
  | nil => exact ⟨res, rfl⟩
  | cons s0 t =>
    unfold compare_list at h
    by_cases hreq : req.isEmpty = true
    · rw [if_pos hreq] at h
      injection h with h2
      exact ⟨[], by rw [← h2]; simp⟩
    · rw [if_neg hreq] at h
      simp only [List.isEmpty_cons, Bool.false_eq_true, if_false] at h
      split_ifs at h <;>
        (injection h with h2 <;>
          first
            | exact ⟨_, h2.symm⟩
            | exact ⟨[], by rw [← h2]; simp⟩)

theorem compare_dict_keys (fuel : Nat) :
    ∀ src req res, compare_dict fuel src req = .ok res →
      ∀ k, (jlookup src k).isSome = true → (jlookup res k).isSome = true := by
  induction fuel with
  | zero =>
    intro src req res h
    simp [compare_dict] at h
  | succ f ih =>
    intro src req res h k hk
    cases req with
    | nil =>
      simp only [compare_dict] at h
      injection h with h2
      rw [← h2]
      exact hk
    | cons hd rest =>
      obtain ⟨item, value⟩ := hd
      simp only [compare_dict] at h
      cases value with
      | str sv => exact ih _ rest res h k (jlookup_jset_isSome _ _ _ _ hk)
      | int iv => exact ih _ rest res h k (jlookup_jset_isSome _ _ _ _ hk)
      | bool bv => exact ih _ rest res h k (jlookup_jset_isSome _ _ _ _ hk)
      | null => cases h
      | obj cls flds => cases h
      | list vs =>
        cases hcur : jlookup src item with
        | none => rw [hcur] at h; cases h
        | some cur =>
          rw [hcur] at h
          cases cur with
          | list cs =>
            dsimp only at h
            cases hcl : compare_list cs vs with
            | error e => rw [hcl] at h; cases h
            | ok merged =>
              rw [hcl] at h
              dsimp only at h
              exact ih _ rest res h k (jlookup_jset_isSome _ _ _ _ hk)
          | null => cases h
          | bool b2 => cases h
          | int n2 => cases h
          | str s2 => cases h
          | dict d2 => cases h
          | obj c2 f2 => cases h
      | dict vkvs =>
        cases hcur : jlookup src item with
        | none => rw [hcur] at h; cases h
        | some cur =>
          rw [hcur] at h
          cases cur with
          | dict ckvs =>
            dsimp only at h
            cases hcd : compare_dict f ckvs vkvs with
            | error e => rw [hcd] at h; cases h
            | ok merged =>
              rw [hcd] at h
              dsimp only at h
              exact ih _ rest res h k (jlookup_jset_isSome _ _ _ _ hk)
          | null => cases h
          | bool b2 => cases h
          | int n2 => cases h
          | str s2 => cases h
          | list l2 => cases h
          | obj c2 f2 => cases h

/-- Counterexample to C3 as stated: a candidate that supplies a primitive
value at a key whose existing value is a nested dict replaces the whole
subtree, deleting the nested field `a.x` that was present on the existing
object and absent from the candidate. -/
theorem merge_monotonicity_counterexample :
    compare_dict 5 [("a", .dict [("x", .int 1)])] [("a", .str "s")]
      = .ok [("a", .str "s")]
    ∧ getPath (.dict [("a", .dict [("x", .int 1)])]) ["a", "x"] = some (.int 1)
    ∧ getPath (.dict [("a", .str "s")]) ["a", "x"] = none :=
  ⟨rfl, rfl, rfl⟩

/-- C3 amended: the merge is monotone node by node — `__compare_dict` never
removes a key from the dict it merges (every key of the existing dict is
still present in the merged dict), and `__compare_list` never removes a list
element (the existing list is a prefix of the merged list).  However, when
the candidate supplies a primitive value at a key whose existing value is a
nested dict or list, the existing subtree at that key is overwritten
wholesale, so fields nested below it can disappear (see the
counterexample). -/
theorem merge_monotonicity_amended :
    (∀ fuel src req res, compare_dict fuel src req = .ok res →
       ∀ k, (jlookup src k).isSome = true → (jlookup res k).isSome = true)
    ∧ (∀ src req res, compare_list src req = .ok res → ∃ tail, res = src ++ tail) :=
  ⟨fun fuel => compare_dict_keys fuel, compare_list_src_prefix⟩

/-- Witness for C3's amended theorem on concrete merges. -/
theorem merge_monotonicity_amended_witness :
    (jlookup [("a", JVal.str "s"), ("b", .int 2)] "a").isSome = true
    ∧ (∃ tail, ([JVal.int 1, .int 2, .int 3] : List JVal) = [JVal.int 1, .int 2] ++ tail) :=
  ⟨merge_monotonicity_amended.1 5 [("a", .int 1)] [("a", .str "s"), ("b", .int 2)]
      [("a", JVal.str "s"), ("b", .int 2)] rfl "a" rfl,
   merge_monotonicity_amended.2 [.int 1, .int 2] [.int 3] [.int 1, .int 2, .int 3] rfl⟩

/-! ### C1 — the DECIDE table of the Reconciliation Driver -/

/-- Counterexample to C1 as stated: for a `...List` kind, `execute_module`
short-circuits to a read (raw.py lines 149-152) regardless of the desired
state — here state is `absent` and an object exists, yet the run reports
`changed = false` and performs no delete, where the claimed table requires a
delete with `changed = true`. -/
theorem decide_table_counterexample :
    execute_module c1ListHelper "absent" false false (some (.dict [("x", .int 1)]))
      = .ok ⟨false, .dict [("x", .int 1)], .readList, true⟩ :=
  rfl

/-- C1 amended: for non-list kinds, with check mode off, the DECIDE step
implements exactly the claimed table: absent + none → no-op unchanged;
absent + existing → delete, changed; none → create the request body,
changed; existing + force → replace unconditionally, changed; otherwise
materialize onto a copy of existing and diff — match → unchanged no-op,
else patch with the merged object, changed. -/
theorem decide_table_amended (h : Helper) (hL : h.isListKind = false)
    (f : Bool) (e body m : JVal) :
    execute_module h "absent" f false none = .ok ⟨false, .dict [], .noop, false⟩
    ∧ execute_module h "absent" f false (some e) = .ok ⟨true, .dict [], .delete, true⟩
    ∧ (h.requestBody = .ok body →
        execute_module h "present" f false none = .ok ⟨true, body, .create, true⟩)
    ∧ (h.requestBody = .ok body →
        execute_module h "present" true false (some e) = .ok ⟨true, body, .replace, true⟩)
    ∧ (h.materialize e = .ok m → objects_match (fix_serialization e) m = true →
        execute_module h "present" false false (some e) = .ok ⟨false, e, .noop, false⟩)
    ∧ (h.materialize e = .ok m → objects_match (fix_serialization e) m = false →
        execute_module h "present" false false (some e) = .ok ⟨true, m, .patch, true⟩) := by
  refine ⟨?_, ?_, ?_, ?_, ?_, ?_⟩
  · unfold execute_module
    rw [hL]
    rfl
  · unfold execute_module
    rw [hL]
    rfl
  · intro hb
    unfold execute_module
    rw [hL, hb]
    rfl
  · intro hb
    unfold execute_module
    rw [hL, hb]
    rfl
  · intro hm hmt
    unfold execute_module
    rw [hL]
    dsimp only
    rw [hm]
    dsimp only
    rw [hmt]
    rfl
  · intro hm hmt
    unfold execute_module
    rw [hL]
    dsimp only
    rw [hm]
    dsimp only
    rw [hmt]
    rfl

/-- Witness for C1's amended theorem at a concrete helper. -/
theorem decide_table_amended_witness :
    execute_module cHelper "absent" false false none
      = .ok ⟨false, .dict [], .noop, false⟩
    ∧ execute_module cHelper "present" false false none
      = .ok ⟨true, .dict [], .create, true⟩
    ∧ execute_module cHelper "present" false false (some (.dict [("a", .int 1)]))
      = .ok ⟨false, .dict [("a", .int 1)], .noop, false⟩ :=
  ⟨(decide_table_amended cHelper rfl false (.dict []) (.dict []) (.dict [])).1,
   (decide_table_amended cHelper rfl false (.dict []) (.dict []) (.dict [])).2.2.1 rfl,
   (decide_table_amended cHelper rfl false (.dict [("a", .int 1)]) (.dict [])
      (.dict [("a", .int 1)])).2.2.2.2.1 rfl rfl⟩

/-! ### C6 — dry-run gating -/

/-- C6: in check mode the create and force/replace paths of `execute_module`
skip the external call, leave `k8s_obj = None`, and then crash on
`k8s_obj.to_dict()` (raw.py lines 177 and 190) instead of reporting the
changed outcome the claim describes. -/
theorem check_mode_create_replace_crash (h : Helper) (b e : JVal)
    (hL : h.isListKind = false) (hb : h.requestBody = .ok b) :
    execute_module h "present" false true none = .error .noneType
    ∧ execute_module h "present" true true (some e) = .error .noneType := by
  constructor
  · unfold execute_module
    rw [hL, hb]
    rfl
  · unfold execute_module
    rw [hL]
    dsimp only
    rw [hb]
    rfl

/-- Witness for C6's crash theorem at a concrete helper. -/
theorem check_mode_create_replace_crash_witness :
    execute_module cHelper "present" false true none = .error .noneType
    ∧ execute_module cHelper "present" true true (some (.dict [])) = .error .noneType :=
  check_mode_create_replace_crash cHelper (.dict []) (.dict []) rfl rfl

/-! ### C2 — idempotence of two consecutive runs -/

/-- C2: running reconcile twice with the same definition and no external
drift does NOT always yield `changed = false` on the second run.  With a dict
parameter whose value contains a list of dicts, `__compare_list`'s Python-3
"match" test (`iteritems(a) == iteritems(b)`, always false — see
`pyDictMatch`) re-appends the request dicts on every materialization, so the
second run diffs as changed and patches again (and the list grows without
bound run after run). -/
theorem reconcile_idempotence_bug :
    runTwice c2Helper "present" false false (some c2Existing) = .ok (true, true) :=
  rfl

/-- The drift the second run sees: the first patch duplicated the `{"a": 1}`
entry, and materializing the same parameters once more triplicates it. -/
theorem reconcile_idempotence_bug_growth :
    execute_module c2Helper "present" false false (some c2Existing)
      = .ok ⟨true,
          .obj "Widget" [("config", .dict [("k",
            .list [.dict [("a", .int 1)], .dict [("a", .int 1)]])])],
          .patch, true⟩ :=
  rfl

/-! ### C4 — secret redaction in the lookup plugin -/

theorem popIfTruthy_self_falsy (kvs : List (String × JVal)) (k : String) :
    truthy ((jlookup (popIfTruthy kvs k) k).getD .null) = false := by
  unfold popIfTruthy
  by_cases h : truthy ((jlookup kvs k).getD .null) = true
  · rw [if_pos h, jlookup_jremove_self]
    rfl
  · rw [if_neg h]
    exact Bool.not_eq_true _ ▸ Bool.of_not_eq_true h

theorem popIfTruthy_other (kvs : List (String × JVal)) (k k2 : String) (h : k2 ≠ k) :
    jlookup (popIfTruthy kvs k) k2 = jlookup kvs k2 := by
  unfold popIfTruthy
  split_ifs with h1
  · exact jlookup_jremove_ne kvs k k2 h
  · rfl

theorem remove_secret_data_clean (d r : JVal) (h : remove_secret_data d = .ok r) :
    secretClean r = true := by
  cases d with
  | null => cases h
  | bool b => cases h
  | int n => cases h
  | str s => cases h
  | list xs => cases h
  | obj c f => cases h
  | dict kvs0 =>
    unfold remove_secret_data at h
    dsimp only at h
    have hdata : truthy ((jlookup (popIfTruthy (popIfTruthy kvs0 "data") "string_data") "data").getD .null) = false := by
      rw [popIfTruthy_other _ _ _ (by decide)]
      exact popIfTruthy_self_falsy kvs0 "data"
    have hsd : truthy ((jlookup (popIfTruthy (popIfTruthy kvs0 "data") "string_data") "string_data").getD .null) = false :=
      popIfTruthy_self_falsy _ "string_data"
    generalize hk : popIfTruthy (popIfTruthy kvs0 "data") "string_data" = kvs at h hdata hsd
    cases hmd : jlookup kvs "metadata" with
    | none => rw [hmd] at h; cases h
    | some md =>
      rw [hmd] at h
      cases md with
      | null => cases h
      | bool b2 => cases h
      | int n2 => cases h
      | str s2 => cases h
      | list l2 => cases h
      | obj c2 f2 => cases h
      | dict mdkvs =>
        try dsimp only at h
        cases hann : jlookup mdkvs "annotations" with
        | none =>
          rw [hann] at h
          simp only [Option.getD_none] at h
          rw [if_neg (by decide : ¬ truthy JVal.null = true)] at h
          injection h with h2
          rw [← h2]
          unfold secretClean jgetD annKeys
          try dsimp only
          rw [hdata, hsd, hmd]
          try dsimp only
          rw [hann]
          rfl
        | some av =>
          rw [hann] at h
          simp only [Option.getD_some] at h
          cases av with
          | dict anns =>
            try dsimp only at h
            by_cases htr : truthy (.dict anns) = true
            · rw [if_pos htr] at h
              injection h with h2
              rw [← h2]
              unfold secretClean jgetD annKeys
              try dsimp only
              rw [jlookup_jset_ne kvs "metadata" "data" _ (by decide),
                jlookup_jset_ne kvs "metadata" "string_data" _ (by decide),
                hdata, hsd, jlookup_jset_self]
              try dsimp only
              rw [jlookup_jset_self]
              simp only [Bool.not_false, Bool.true_and]
              rw [List.all_eq_true]
              intro k2 hk2
              obtain ⟨p, hp, hpk⟩ := List.mem_map.mp hk2
              have hfp := List.of_mem_filter hp
              rw [← hpk]
              exact hfp
            · rw [if_neg htr] at h
              injection h with h2
              rw [← h2]
              unfold secretClean jgetD annKeys
              try dsimp only
              rw [hdata, hsd, hmd]
              try dsimp only
              rw [hann]
              have hanns : anns = [] := by
                cases anns with
                | nil => rfl
                | cons a t =>
                    exact absurd (by rfl : truthy (JVal.dict (a :: t)) = true) htr
              rw [hanns]
              rfl
          | str sv =>
            try dsimp only at h
            injection h with h2
            rw [← h2]
            unfold secretClean jgetD annKeys
            try dsimp only
            rw [hdata, hsd, hmd]
            try dsimp only
            rw [hann]
            rfl
          | null =>
            try dsimp only at h
            rw [if_neg (by decide : ¬ truthy JVal.null = true)] at h
            injection h with h2
            rw [← h2]
            unfold secretClean jgetD annKeys
            try dsimp only
            rw [hdata, hsd, hmd]
            try dsimp only
            rw [hann]
            rfl
          | bool bv =>
            try dsimp only at h
            by_cases htr : truthy (.bool bv) = true
            · rw [if_pos htr] at h; cases h
            · rw [if_neg htr] at h
              injection h with h2
              rw [← h2]
              unfold secretClean jgetD annKeys
              try dsimp only
              rw [hdata, hsd, hmd]
              try dsimp only
              rw [hann]
              rfl
          | int nv =>
            try dsimp only at h
            by_cases htr : truthy (.int nv) = true
            · rw [if_pos htr] at h; cases h
            · rw [if_neg htr] at h
              injection h with h2
              rw [← h2]
              unfold secretClean jgetD annKeys
              try dsimp only
              rw [hdata, hsd, hmd]
              try dsimp only
              rw [hann]
              rfl
          | list lv =>
            try dsimp only at h
            by_cases htr : truthy (.list lv) = true
            · rw [if_pos htr] at h; cases h
            · rw [if_neg htr] at h
              injection h with h2
              rw [← h2]
              unfold secretClean jgetD annKeys
              try dsimp only
              rw [hdata, hsd, hmd]
              try dsimp only
              rw [hann]
              rfl
          | obj cv fv =>
            try dsimp only at h
            rw [if_pos (by rfl : truthy (JVal.obj cv fv) = true)] at h
            cases h

theorem removeAllSecrets_clean (items ys : List JVal)
    (h : removeAllSecrets items = .ok ys) : ∀ y, y ∈ ys → secretClean y = true := by
  induction items generalizing ys with
  | nil =>
    unfold removeAllSecrets at h
    injection h with h2
    rw [← h2]
    intro y hy
    cases hy
  | cons x rest ih =>
    unfold removeAllSecrets at h
    cases hx : remove_secret_data x with
    | error e => rw [hx] at h; cases h
    | ok y0 =>
      rw [hx] at h
      cases hrest : removeAllSecrets rest with
      | error e => rw [hrest] at h; cases h
      | ok ys0 =>
        rw [hrest] at h
        injection h with h2
        rw [← h2]
        intro y hy
        rcases List.mem_cons.mp hy with hcase | hcase
        · rw [hcase]
          exact remove_secret_data_clean x y0 hx
        · exact ih ys0 hrest y hcase

/-- Counterexample to C4 as stated: the redaction only pops `data` when its
value is TRUTHY (`if obj_dict.get('data')`), so a Secret whose `data` is an
empty map keeps its `data` key in the lookup result. -/
theorem secret_redaction_counterexample :
    get_object "secret" (some c4SecretDict)
      = .ok [.dict [("kind", .str "Secret"), ("data", .dict []), ("metadata", .dict [])]]
    ∧ hasKey [("kind", JVal.str "Secret"), ("data", JVal.dict []), ("metadata", JVal.dict [])]
        "data" = true :=
  ⟨rfl, rfl⟩

/-- C4 amended: every Secret-kind object returned by the lookup (fetch-by-name
and list variants) carries no TRUTHY `data` or `string_data` entry — a falsy
value (empty map, `None`) keeps its key — and its metadata annotations, when
they form a dict, contain no key with the substring `secret`.  (`to_snake`
maps the user-facing kind `Secret` to the internal `secret` these paths test
for.) -/
theorem secret_redaction_amended :
    to_snake "Secret" = "secret"
    ∧ (∀ apiResult out, get_object "secret" apiResult = .ok out →
        ∀ r, r ∈ out → secretClean r = true)
    ∧ (∀ ns methods items, list_objects "secret" ns methods = .ok (.list items) →
        ∀ r, r ∈ items → secretClean r = true) := by
  refine ⟨rfl, ?_, ?_⟩
  · intro apiResult out h r hr
    cases apiResult with
    | none =>
      unfold get_object at h
      injection h with h2
      rw [← h2] at hr
      cases hr
    | some d =>
      unfold get_object at h
      dsimp only at h
      rw [if_pos (by rfl)] at h
      cases hrm : remove_secret_data d with
      | error e => rw [hrm] at h; cases h
      | ok cleaned =>
        rw [hrm] at h
        injection h with h2
        rw [← h2] at hr
        rcases List.mem_singleton.mp hr with hcase
        rw [hcase]
        exact remove_secret_data_clean d cleaned hrm
  · intro ns methods items h r hr
    unfold list_objects at h
    cases hm : lookup_list_method "secret" ns methods with
    | none => rw [hm] at h; cases h
    | some apiResult =>
      rw [hm] at h
      cases apiResult with
      | none =>
        dsimp only at h
        injection h with h2
        injection h2 with h3
        rw [← h3] at hr
        cases hr
      | some json =>
        dsimp only at h
        cases json with
        | dict kvs =>
          dsimp only at h
          rw [if_pos (by rfl)] at h
          cases hresp : (jlookup kvs "items").getD (.list []) with
          | list items0 =>
            rw [hresp] at h
            dsimp only at h
            cases hclean : removeAllSecrets items0 with
            | error e => rw [hclean] at h; cases h
            | ok cleaned =>
              rw [hclean] at h
              injection h with h2
              injection h2 with h3
              rw [← h3] at hr
              exact removeAllSecrets_clean items0 cleaned hclean r hr
          | null =>
            rw [hresp] at h
            dsimp only at h
            rw [if_neg (by decide : ¬ truthy JVal.null = true)] at h
            injection h with h2
            cases h2
          | bool bv =>
            rw [hresp] at h
            dsimp only at h
            by_cases htr : truthy (.bool bv) = true
            · rw [if_pos htr] at h; cases h
            · rw [if_neg htr] at h
              injection h with h2
              cases h2
          | int nv =>
            rw [hresp] at h
            dsimp only at h
            by_cases htr : truthy (.int nv) = true
            · rw [if_pos htr] at h; cases h
            · rw [if_neg htr] at h
              injection h with h2
              cases h2
          | str sv =>
            rw [hresp] at h
            dsimp only at h
            by_cases htr : truthy (.str sv) = true
            · rw [if_pos htr] at h; cases h
            · rw [if_neg htr] at h
              injection h with h2
              cases h2
          | dict dv =>
            rw [hresp] at h
            dsimp only at h
            by_cases htr : truthy (.dict dv) = true
            · rw [if_pos htr] at h; cases h
            · rw [if_neg htr] at h
              injection h with h2
              cases h2
          | obj cv fv =>
            rw [hresp] at h
            dsimp only at h
            rw [if_pos (by rfl : truthy (JVal.obj cv fv) = true)] at h
            cases h
        | null => cases h
        | bool bv => cases h
        | int nv => cases h
        | str sv => cases h
        | list lv => cases h
        | obj cv fv => cases h

/-- Witness for C4's amended theorem: a Secret with a password in `data` and a
token-secret annotation comes back with the password gone and only the
harmless annotation kept. -/
theorem secret_redaction_amended_witness :
    secretClean (.dict [("kind", .str "Secret"),
      ("metadata", .dict [("annotations", .dict [("build", .str "b")])])]) = true :=
  secret_redaction_amended.2.1
    (some (.dict [("kind", .str "Secret"), ("data", .dict [("p", .str "x")]),
      ("metadata", .dict [("annotations",
        .dict [("build", .str "b"), ("openshift.io/token-secret", .str "t")])])]))
    [.dict [("kind", .str "Secret"),
      ("metadata", .dict [("annotations", .dict [("build", .str "b")])])]]
    rfl _ (List.mem_singleton.mpr rfl)

/-! ### C5 — reference-key choice and the ambiguous-merge-target error -/

theorem compare_list_no_ambiguous (src req : List JVal) :
    compare_list src req ≠ .error .ambiguous := by
  intro h
  cases req with
  | nil =>
    unfold compare_list at h
    simp only [List.isEmpty_nil, if_true] at h
    cases h
  | cons r0 rrest =>
    cases src with
    | nil =>
      unfold compare_list at h
      simp only [List.isEmpty_cons, List.isEmpty_nil, Bool.false_eq_true, if_false,
        if_true, List.nil_append] at h
      split_ifs at h <;> first | cases h | (injection h with h2; cases h2)
    | cons s0 srest =>
      unfold compare_list at h
      simp only [List.isEmpty_cons, Bool.false_eq_true, if_false] at h
      split_ifs at h <;> first | cases h | (injection h with h2; cases h2)

theorem compare_dict_no_ambiguous (fuel : Nat) :
    ∀ src req, compare_dict fuel src req ≠ .error .ambiguous := by
  induction fuel with
  | zero =>
    intro src req h
    unfold compare_dict at h
    injection h with h2
    cases h2
  | succ f ih =>
    intro src req h
    cases req with
    | nil =>
      unfold compare_dict at h
      cases h
    | cons hd rest =>
      obtain ⟨item, value⟩ := hd
      simp only [compare_dict] at h
      cases value with
      | str sv => exact ih _ rest h
      | int iv => exact ih _ rest h
      | bool bv => exact ih _ rest h
      | null => injection h with h2; cases h2
      | obj cls flds => injection h with h2; cases h2
      | list vs =>
        cases hcur : jlookup src item with
        | none => rw [hcur] at h; injection h with h2; cases h2
        | some cur =>
          rw [hcur] at h
          cases cur with
          | list cs =>
            try dsimp only at h
            cases hcl : compare_list cs vs with
            | error e =>
              rw [hcl] at h
              injection h with h2
              rw [h2] at hcl
              exact compare_list_no_ambiguous cs vs hcl
            | ok merged =>
              rw [hcl] at h
              try dsimp only at h
              exact ih _ rest h
          | null => injection h with h2; cases h2
          | bool b2 => injection h with h2; cases h2
          | int n2 => injection h with h2; cases h2
          | str s2 => injection h with h2; cases h2
          | dict d2 => injection h with h2; cases h2
          | obj c2 f2 => injection h with h2; cases h2
      | dict vkvs =>
        cases hcur : jlookup src item with
        | none => rw [hcur] at h; injection h with h2; cases h2
        | some cur =>
          rw [hcur] at h
          cases cur with
          | dict ckvs =>
            try dsimp only at h
            cases hcd : compare_dict f ckvs vkvs with
            | error e =>
              rw [hcd] at h
              injection h with h2
              rw [h2] at hcd
              exact ih ckvs vkvs hcd
            | ok merged =>
              rw [hcd] at h
              try dsimp only at h
              exact ih _ rest h
          | null => injection h with h2; cases h2
          | bool b2 => injection h with h2; cases h2
          | int n2 => injection h with h2; cases h2
          | str s2 => injection h with h2; cases h2
          | list l2 => injection h with h2; cases h2
          | obj c2 f2 => injection h with h2; cases h2

theorem keyDemote_kept (k : String) (items : List JVal)
    (h : keyDemote k items = .ok true) :
    ∀ i, i ∈ items → ∃ ikvs, i = JVal.dict ikvs
      ∧ truthy ((jlookup ikvs k).getD .null) = true := by
  induction items with
  | nil =>
    intro i hi
    cases hi
  | cons x rest ih =>
    intro i hi
    unfold keyDemote at h
    cases x with
    | dict ikvs =>
      try dsimp only at h
      by_cases htr : truthy ((jlookup ikvs k).getD .null) = true
      · rw [if_pos htr] at h
        rcases List.mem_cons.mp hi with hcase | hcase
        · exact ⟨ikvs, hcase, htr⟩
        · exact ih h i hcase
      · rw [if_neg htr] at h
        injection h with h2
        cases h2
    | null => cases h
    | bool b => cases h
    | int n => cases h
    | str s => cases h
    | list l => cases h
    | obj c f => cases h

theorem getattrO_no_amb (o : JVal) (k : String) : getattrO o k ≠ .error .ambiguous := by
  cases o <;> simp [getattrO]

theorem setattrO_no_amb (o : JVal) (k : String) (v : JVal) :
    setattrO o k v ≠ .error .ambiguous := by
  cases o <;> simp [setattrO]

theorem model_class_from_name_no_amb (env : SchemaEnv) (cls : String) :
    model_class_from_name env cls ≠ .error .ambiguous := by
  unfold model_class_from_name
  split_ifs <;> simp

theorem swaggerTypes_no_amb (env : SchemaEnv) (o : JVal) :
    swaggerTypes env o ≠ .error .ambiguous := by
  cases o <;> simp only [swaggerTypes] <;> try simp
  case obj c f =>
    cases classFields env c <;> simp

theorem eqMatchOne_no_amb (o : JVal) (ikvs : List (String × JVal)) :
    eqMatchOne o ikvs ≠ .error .ambiguous := by
  induction ikvs with
  | nil => simp [eqMatchOne]
  | cons hd rest ih =>
    obtain ⟨ik, iv⟩ := hd
    intro h
    unfold eqMatchOne at h
    cases hg : getattrO o (attribute_to_snake ik) with
    | error e =>
      rw [hg] at h
      injection h with h2
      rw [h2] at hg
      exact getattrO_no_amb o (attribute_to_snake ik) hg
    | ok v =>
      rw [hg] at h
      dsimp only at h
      split_ifs at h <;> first | cases h | exact ih h

theorem eqScan_no_amb (ikvs : List (String × JVal)) (src : List JVal) :
    eqScan ikvs src ≠ .error .ambiguous := by
  induction src with
  | nil => simp [eqScan]
  | cons o rest ih =>
    intro h
    unfold eqScan at h
    cases hm : eqMatchOne o ikvs with
    | error e =>
      rw [hm] at h
      injection h with h2
      rw [h2] at hm
      exact eqMatchOne_no_amb o ikvs hm
    | ok b =>
      rw [hm] at h
      cases b <;> first | cases h | exact ih h

theorem keyDemote_no_amb (k : String) (items : List JVal) :
    keyDemote k items ≠ .error .ambiguous := by
  induction items with
  | nil => simp [keyDemote]
  | cons x rest ih =>
    intro h
    unfold keyDemote at h
    cases x with
    | dict ikvs =>
      try dsimp only at h
      split_ifs at h <;> first | cases h | exact ih h
    | null => injection h with h2; cases h2
    | bool b => injection h with h2; cases h2
    | int n => injection h with h2; cases h2
    | str s => injection h with h2; cases h2
    | list l => injection h with h2; cases h2
    | obj c f => injection h with h2; cases h2

theorem chosenKey_no_amb (env : SchemaEnv) (cls : String) (items : List JVal) :
    chosenKey env cls items ≠ .error .ambiguous := by
  intro h
  unfold chosenKey at h
  cases hc : candidateKey env cls with
  | none => rw [hc] at h; cases h
  | some k =>
    rw [hc] at h
    try dsimp only at h
    cases hd : keyDemote k items with
    | error e =>
      rw [hd] at h
      injection h with h2
      rw [h2] at hd
      exact keyDemote_no_amb k items hd
    | ok b =>
      rw [hd] at h
      cases b <;> cases h

theorem chosenKey_some (env : SchemaEnv) (cls : String) (items : List JVal) (k : String)
    (h : chosenKey env cls items = .ok (some k)) :
    candidateKey env cls = some k ∧ keyDemote k items = .ok true := by
  unfold chosenKey at h
  cases hc : candidateKey env cls with
  | none => rw [hc] at h; cases h
  | some k0 =>
    rw [hc] at h
    try dsimp only at h
    cases hd : keyDemote k0 items with
    | error e => rw [hd] at h; cases h
    | ok b =>
      rw [hd] at h
      cases b with
      | true =>
        injection h with h2
        injection h2 with h3
        rw [← h3]
        exact ⟨rfl, hd⟩
      | false => cases h

set_option maxHeartbeats 1600000

theorem cluster_no_ambiguous (f : Nat) :
    (∀ env o path v, set_obj_attribute env f o path v ≠ .error .ambiguous)
    ∧ (∀ env src req cls, compare_obj_list env f src req cls ≠ .error .ambiguous)
    ∧ (∀ env cls k items src,
        (∀ i, i ∈ items → ∃ ikvs, i = JVal.dict ikvs
            ∧ truthy ((jlookup ikvs k).getD .null) = true) →
        objListKeyLoop env f cls k items src ≠ .error .ambiguous)
    ∧ (∀ env cls k ikvs target src, objListScan env f cls k ikvs target src ≠ .error .ambiguous)
    ∧ (∀ env cls o ikvs, updateMatchedFields env f cls o ikvs ≠ .error .ambiguous)
    ∧ (∀ env cls items src, objListEqLoop env f cls items src ≠ .error .ambiguous)
    ∧ (∀ env o item, update_object_properties env f o item ≠ .error .ambiguous)
    ∧ (∀ env o ikvs, updatePropsLoop env f o ikvs ≠ .error .ambiguous) := by
  induction f with
  | zero =>
    refine ⟨?_, ?_, ?_, ?_, ?_, ?_, ?_, ?_⟩
    · intro env o path v h; cases h
    · intro env src req cls h; cases h
    · intro env cls k items src _ h; cases h
    · intro env cls k ikvs target src h; cases h
    · intro env cls o ikvs h; cases h
    · intro env cls items src h; cases h
    · intro env o item h; cases h
    · intro env o ikvs h; cases h
  | succ f ih =>
    obtain ⟨ihS, ihCOL, ihKL, ihSC, ihUMF, ihEL, ihUOP, ihUPL⟩ := ih
    refine ⟨?_, ?_, ?_, ?_, ?_, ?_, ?_, ?_⟩
    · -- set_obj_attribute
      intro env o path v h
      cases path with
      | nil => cases h
      | cons raw rest =>
        unfold set_obj_attribute at h
        try dsimp only at h
        repeat' split at h
        all_goals
          first
            | (injection h with h2; subst h2; rename_i heq;
               first
                 | exact swaggerTypes_no_amb _ _ heq
                 | exact setattrO_no_amb _ _ _ heq
                 | exact getattrO_no_amb _ _ heq
                 | exact model_class_from_name_no_amb _ _ heq
                 | exact compare_list_no_ambiguous _ _ heq
                 | exact compare_dict_no_ambiguous _ _ _ heq
                 | exact ihS _ _ _ _ heq
                 | exact ihCOL _ _ _ _ heq
                 | ((repeat' split at heq) <;>
                    first
                      | (injection heq with hq2; subst hq2; rename_i heq2;
                         first
                           | exact setattrO_no_amb _ _ _ heq2
                           | exact getattrO_no_amb _ _ heq2
                           | exact model_class_from_name_no_amb _ _ heq2
                           | exact swaggerTypes_no_amb _ _ heq2
                           | exact compare_list_no_ambiguous _ _ heq2
                           | exact compare_dict_no_ambiguous _ _ _ heq2
                           | exact ihS _ _ _ _ heq2
                           | exact ihCOL _ _ _ _ heq2
                           | exact ihSC _ _ _ _ _ _ heq2
                           | exact ihUMF _ _ _ _ heq2
                           | exact ihEL _ _ _ _ heq2
                           | exact ihUOP _ _ _ heq2
                           | exact ihUPL _ _ _ heq2)
                      | (injection heq with hq2; cases hq2)
                      | cases heq
                      | exact setattrO_no_amb _ _ _ heq
                      | exact getattrO_no_amb _ _ heq
                      | exact swaggerTypes_no_amb _ _ heq
                      | exact model_class_from_name_no_amb _ _ heq
                      | exact compare_list_no_ambiguous _ _ heq
                      | exact compare_dict_no_ambiguous _ _ _ heq
                      | exact ihS _ _ _ _ heq
                      | exact ihCOL _ _ _ _ heq
                      | exact ihSC _ _ _ _ _ _ heq
                      | exact ihUMF _ _ _ _ heq
                      | exact ihEL _ _ _ _ heq
                      | exact ihUOP _ _ _ heq
                      | exact ihUPL _ _ _ heq))
            | (injection h with h2; cases h2)
            | cases h
            | exact ihS _ _ _ _ h
            | exact ihCOL _ _ _ _ h
            | exact setattrO_no_amb _ _ _ h
            | exact getattrO_no_amb _ _ h
            | exact compare_list_no_ambiguous _ _ h
            | exact compare_dict_no_ambiguous _ _ _ h
    · -- compare_obj_list
      intro env src req cls h
      unfold compare_obj_list at h
      by_cases htr : (!truthy req) = true
      · rw [if_pos htr] at h; cases h
      · rw [if_neg htr] at h
        cases req with
        | list items =>
          try dsimp only at h
          cases hmc : model_class_from_name env cls with
          | error e =>
            rw [hmc] at h
            injection h with h2
            rw [h2] at hmc
            exact model_class_from_name_no_amb env cls hmc
          | ok sample =>
            rw [hmc] at h
            try dsimp only at h
            cases hck : chosenKey env cls items with
            | error e =>
              rw [hck] at h
              injection h with h2
              rw [h2] at hck
              exact chosenKey_no_amb env cls items hck
            | ok ko =>
              rw [hck] at h
              cases ko with
              | none =>
                try dsimp only at h
                exact ihEL env cls items src h
              | some k =>
                try dsimp only at h
                have hinv := keyDemote_kept k items (chosenKey_some env cls items k hck).2
                exact ihKL env cls k items src hinv h
        | null => cases h
        | bool b => cases h
        | int n => cases h
        | str s => cases h
        | dict kvs => cases h
        | obj c fl => cases h
    · -- objListKeyLoop
      intro env cls k items src hinv h
      cases items with
      | nil => cases h
      | cons item rest =>
        obtain ⟨ikvs, hitem, htr⟩ := hinv item (List.mem_cons_self _ _)
        subst hitem
        unfold objListKeyLoop at h
        try dsimp only at h
        rw [htr] at h
        rw [if_neg (by decide : ¬ ((!true) = true))] at h
        cases hscan : objListScan env f cls k ikvs ((jlookup ikvs k).getD .null) src with
        | error e =>
          rw [hscan] at h
          injection h with h2
          rw [h2] at hscan
          exact ihSC env cls k ikvs _ src hscan
        | ok pr =>
          rw [hscan] at h
          obtain ⟨found, src2⟩ := pr
          try dsimp only at h
          cases found with
          | true =>
            exact ihKL env cls k rest src2
              (fun i hi => hinv i (List.mem_cons_of_mem _ hi)) h
          | false =>
            try dsimp only at h
            cases hmc : model_class_from_name env cls with
            | error e =>
              rw [hmc] at h
              injection h with h2
              rw [h2] at hmc
              exact model_class_from_name_no_amb env cls hmc
            | ok fresh =>
              rw [hmc] at h
              try dsimp only at h
              cases hupd : update_object_properties env f fresh (.dict ikvs) with
              | error e =>
                rw [hupd] at h
                injection h with h2
                rw [h2] at hupd
                exact ihUOP env fresh (.dict ikvs) hupd
              | ok newObj =>
                rw [hupd] at h
                try dsimp only at h
                exact ihKL env cls k rest (src2 ++ [newObj])
                  (fun i hi => hinv i (List.mem_cons_of_mem _ hi)) h
    · -- objListScan
      intro env cls k ikvs target src h
      cases src with
      | nil => cases h
      | cons o restSrc =>
        unfold objListScan at h
        try dsimp only at h
        repeat' split at h
        all_goals
          first
            | (injection h with h2; subst h2; rename_i heq;
               first
                 | exact getattrO_no_amb _ _ heq
                 | exact ihUMF _ _ _ _ heq
                 | exact ihSC _ _ _ _ _ _ heq
                 | ((repeat' split at heq) <;>
                    first
                      | (injection heq with hq2; subst hq2; rename_i heq2;
                         first
                           | exact setattrO_no_amb _ _ _ heq2
                           | exact getattrO_no_amb _ _ heq2
                           | exact model_class_from_name_no_amb _ _ heq2
                           | exact swaggerTypes_no_amb _ _ heq2
                           | exact compare_list_no_ambiguous _ _ heq2
                           | exact compare_dict_no_ambiguous _ _ _ heq2
                           | exact ihS _ _ _ _ heq2
                           | exact ihCOL _ _ _ _ heq2
                           | exact ihSC _ _ _ _ _ _ heq2
                           | exact ihUMF _ _ _ _ heq2
                           | exact ihEL _ _ _ _ heq2
                           | exact ihUOP _ _ _ heq2
                           | exact ihUPL _ _ _ heq2)
                      | (injection heq with hq2; cases hq2)
                      | cases heq
                      | exact setattrO_no_amb _ _ _ heq
                      | exact getattrO_no_amb _ _ heq
                      | exact swaggerTypes_no_amb _ _ heq
                      | exact model_class_from_name_no_amb _ _ heq
                      | exact compare_list_no_ambiguous _ _ heq
                      | exact compare_dict_no_ambiguous _ _ _ heq
                      | exact ihS _ _ _ _ heq
                      | exact ihCOL _ _ _ _ heq
                      | exact ihSC _ _ _ _ _ _ heq
                      | exact ihUMF _ _ _ _ heq
                      | exact ihEL _ _ _ _ heq
                      | exact ihUOP _ _ _ heq
                      | exact ihUPL _ _ _ heq))
            | (injection h with h2; cases h2)
            | cases h
            | exact ihSC _ _ _ _ _ _ h
            | exact ihUMF _ _ _ _ h
            | exact getattrO_no_amb _ _ h
    · -- updateMatchedFields
      intro env cls o ikvs h
      cases ikvs with
      | nil => cases h
      | cons hd rest =>
        obtain ⟨key, value⟩ := hd
        unfold updateMatchedFields at h
        try dsimp only at h
        repeat' split at h
        all_goals
          first
            | (injection h with h2; subst h2; rename_i heq;
               first
                 | exact getattrO_no_amb _ _ heq
                 | exact setattrO_no_amb _ _ _ heq
                 | exact model_class_from_name_no_amb _ _ heq
                 | exact swaggerTypes_no_amb _ _ heq
                 | exact compare_list_no_ambiguous _ _ heq
                 | exact compare_dict_no_ambiguous _ _ _ heq
                 | exact ihS _ _ _ _ heq
                 | exact ihCOL _ _ _ _ heq
                 | exact ihUOP _ _ _ heq
                 | exact ihUMF _ _ _ _ heq
                 | ((repeat' split at heq) <;>
                    first
                      | (injection heq with hq2; subst hq2; rename_i heq2;
                         first
                           | exact setattrO_no_amb _ _ _ heq2
                           | exact getattrO_no_amb _ _ heq2
                           | exact model_class_from_name_no_amb _ _ heq2
                           | exact swaggerTypes_no_amb _ _ heq2
                           | exact compare_list_no_ambiguous _ _ heq2
                           | exact compare_dict_no_ambiguous _ _ _ heq2
                           | exact ihS _ _ _ _ heq2
                           | exact ihCOL _ _ _ _ heq2
                           | exact ihSC _ _ _ _ _ _ heq2
                           | exact ihUMF _ _ _ _ heq2
                           | exact ihEL _ _ _ _ heq2
                           | exact ihUOP _ _ _ heq2
                           | exact ihUPL _ _ _ heq2)
                      | (injection heq with hq2; cases hq2)
                      | cases heq
                      | exact setattrO_no_amb _ _ _ heq
                      | exact getattrO_no_amb _ _ heq
                      | exact swaggerTypes_no_amb _ _ heq
                      | exact model_class_from_name_no_amb _ _ heq
                      | exact compare_list_no_ambiguous _ _ heq
                      | exact compare_dict_no_ambiguous _ _ _ heq
                      | exact ihS _ _ _ _ heq
                      | exact ihCOL _ _ _ _ heq
                      | exact ihSC _ _ _ _ _ _ heq
                      | exact ihUMF _ _ _ _ heq
                      | exact ihEL _ _ _ _ heq
                      | exact ihUOP _ _ _ heq
                      | exact ihUPL _ _ _ heq))
            | (injection h with h2; cases h2)
            | cases h
            | exact ihUMF _ _ _ _ h
            | exact ihCOL _ _ _ _ h
            | exact setattrO_no_amb _ _ _ h
            | exact getattrO_no_amb _ _ h
            | exact compare_list_no_ambiguous _ _ h
            | exact compare_dict_no_ambiguous _ _ _ h
    · -- objListEqLoop
      intro env cls items src h
      cases items with
      | nil => cases h
      | cons item rest =>
        unfold objListEqLoop at h
        cases item with
        | dict ikvs =>
          try dsimp only at h
          cases hscan : eqScan ikvs src with
          | error e =>
            rw [hscan] at h
            injection h with h2
            rw [h2] at hscan
            exact eqScan_no_amb ikvs src hscan
          | ok b =>
            rw [hscan] at h
            cases b with
            | true =>
              try dsimp only at h
              exact ihEL env cls rest src h
            | false =>
              try dsimp only at h
              cases hmc : model_class_from_name env cls with
              | error e =>
                rw [hmc] at h
                injection h with h2
                rw [h2] at hmc
                exact model_class_from_name_no_amb env cls hmc
              | ok fresh =>
                rw [hmc] at h
                try dsimp only at h
                cases hupd : update_object_properties env f fresh (.dict ikvs) with
                | error e =>
                  rw [hupd] at h
                  injection h with h2
                  rw [h2] at hupd
                  exact ihUOP env fresh (.dict ikvs) hupd
                | ok newObj =>
                  rw [hupd] at h
                  try dsimp only at h
                  exact ihEL env cls rest (src ++ [newObj]) h
        | null => injection h with h2; cases h2
        | bool b => injection h with h2; cases h2
        | int n => injection h with h2; cases h2
        | str s => injection h with h2; cases h2
        | list l => injection h with h2; cases h2
        | obj c fl => injection h with h2; cases h2
    · -- update_object_properties
      intro env o item h
      cases item with
      | dict ikvs =>
        unfold update_object_properties at h
        try dsimp only at h
        exact ihUPL env o ikvs h
      | null => cases h
      | bool b => cases h
      | int n => cases h
      | str s => cases h
      | list l => cases h
      | obj c fl => cases h
    · -- updatePropsLoop
      intro env o ikvs h
      cases ikvs with
      | nil => cases h
      | cons hd rest =>
        obtain ⟨key, value⟩ := hd
        unfold updatePropsLoop at h
        try dsimp only at h
        repeat' split at h
        all_goals
          first
            | (injection h with h2; subst h2; rename_i heq;
               first
                 | exact getattrO_no_amb _ _ heq
                 | exact setattrO_no_amb _ _ _ heq
                 | exact model_class_from_name_no_amb _ _ heq
                 | exact swaggerTypes_no_amb _ _ heq
                 | exact ihS _ _ _ _ heq
                 | exact ihUOP _ _ _ heq
                 | exact ihUPL _ _ _ heq
                 | ((repeat' split at heq) <;>
                    first
                      | (injection heq with hq2; subst hq2; rename_i heq2;
                         first
                           | exact setattrO_no_amb _ _ _ heq2
                           | exact getattrO_no_amb _ _ heq2
                           | exact model_class_from_name_no_amb _ _ heq2
                           | exact swaggerTypes_no_amb _ _ heq2
                           | exact compare_list_no_ambiguous _ _ heq2
                           | exact compare_dict_no_ambiguous _ _ _ heq2
                           | exact ihS _ _ _ _ heq2
                           | exact ihCOL _ _ _ _ heq2
                           | exact ihSC _ _ _ _ _ _ heq2
                           | exact ihUMF _ _ _ _ heq2
                           | exact ihEL _ _ _ _ heq2
                           | exact ihUOP _ _ _ heq2
                           | exact ihUPL _ _ _ heq2)
                      | (injection heq with hq2; cases hq2)
                      | cases heq
                      | exact setattrO_no_amb _ _ _ heq
                      | exact getattrO_no_amb _ _ heq
                      | exact swaggerTypes_no_amb _ _ heq
                      | exact model_class_from_name_no_amb _ _ heq
                      | exact compare_list_no_ambiguous _ _ heq
                      | exact compare_dict_no_ambiguous _ _ _ heq
                      | exact ihS _ _ _ _ heq
                      | exact ihCOL _ _ _ _ heq
                      | exact ihSC _ _ _ _ _ _ heq
                      | exact ihUMF _ _ _ _ heq
                      | exact ihEL _ _ _ _ heq
                      | exact ihUOP _ _ _ heq
                      | exact ihUPL _ _ _ heq))
            | (injection h with h2; cases h2)
            | cases h
            | exact ihUPL _ _ _ h
            | exact ihS _ _ _ _ h
            | exact setattrO_no_amb _ _ _ h
            | exact getattrO_no_amb _ _ h

/-- The ambiguous-merge raise is unreachable: with a reference key available
(class `Thing` has `name`, so `candidateKey` picks it) and the second request
element omitting that key, `__compare_obj_list` does not fail — `keyDemote`
silently drops the key and both request elements are matched by full field
equality (and appended here), so the merge succeeds. -/
theorem ambiguous_merge_counterexample :
    candidateKey c5Env "Thing" = some "name"
    ∧ hasKey [("v", JVal.int 2)] "name" = false
    ∧ compare_obj_list c5Env 20 [JVal.obj "Thing" [("name", JVal.str "x"), ("v", JVal.int 1)]]
        (JVal.list [JVal.dict [("name", JVal.str "y")], JVal.dict [("v", JVal.int 2)]]) "Thing"
      = Except.ok [JVal.obj "Thing" [("name", JVal.str "x"), ("v", JVal.int 1)],
          JVal.obj "Thing" [("name", JVal.str "y")],
          JVal.obj "Thing" [("v", JVal.int 2)]] :=
  ⟨rfl, rfl, rfl⟩

/-- C5 (amended): a reference key is used exactly when the element class has a
`name` or `type` field (in that preference order, via `candidateKey`) AND every
request element provides that key truthily — if any element omits the key the
merge falls back to full-field-equality matching instead of failing; the
claimed ambiguous-merge-target error is dead code: `compare_obj_list` never
returns it, at any fuel, for any schema, source list or request value. -/
theorem ambiguous_merge_dead_amended :
    (∀ env cls items k, chosenKey env cls items = Except.ok (some k) →
        candidateKey env cls = some k
        ∧ ∀ i ∈ items, ∃ ikvs, i = JVal.dict ikvs
            ∧ truthy ((jlookup ikvs k).getD JVal.null) = true)
    ∧ (∀ env cls items k, candidateKey env cls = some k →
        keyDemote k items = Except.ok true →
        chosenKey env cls items = Except.ok (some k))
    ∧ ∀ fuel env src req cls,
        compare_obj_list env fuel src req cls ≠ Except.error MErr.ambiguous := by
  refine ⟨?_, ?_, ?_⟩
  · intro env cls items k h
    obtain ⟨h1, h2⟩ := chosenKey_some env cls items k h
    exact ⟨h1, keyDemote_kept k items h2⟩
  · intro env cls items k h1 h2
    unfold chosenKey
    rw [h1]
    dsimp only
    rw [h2]
  · intro fuel env src req cls
    exact (cluster_no_ambiguous fuel).2.1 env src req cls

/-- Witness for the amended C5 theorem at a concrete schema and request. -/
theorem ambiguous_merge_dead_amended_witness :
    (candidateKey c5Env "Thing" = some "name"
      ∧ ∀ i ∈ [JVal.dict [("name", JVal.str "y")]], ∃ ikvs, i = JVal.dict ikvs
          ∧ truthy ((jlookup ikvs "name").getD JVal.null) = true)
    ∧ chosenKey c5Env "Thing" [JVal.dict [("name", JVal.str "y")]] = Except.ok (some "name")
    ∧ compare_obj_list c5Env 5 [] (JVal.list []) "Thing" ≠ Except.error MErr.ambiguous :=
  ⟨ambiguous_merge_dead_amended.1 c5Env "Thing" [JVal.dict [("name", JVal.str "y")]] "name"
      (by rfl),
   ambiguous_merge_dead_amended.2.1 c5Env "Thing" [JVal.dict [("name", JVal.str "y")]] "name"
      (by rfl) (by rfl),
   ambiguous_merge_dead_amended.2.2 5 c5Env [] (JVal.list []) "Thing"⟩
